import Mathlib

/-!
# Navigation controller of the Go Interface & Enum Explorer

A shallow embedding of `main.go` (the registry `topics` / `exampleFunctions`,
`main`, `tutorialMode`, `browseExamples`) together with the parts of
`utils` it calls.

The program is interactive: it blocks at four places on `scanner.Scan()`
(main.go lines 55, 124, 149 and 182).  The embedding is the resumption
semantics of the code: a `State` names the `Scan` call the program is blocked
at together with the live local variables, and `step` runs the code from the
moment `scanner.Text()` returns a line up to the next `Scan` call, recording
every call to a collaborator (`fmt`, `utils`, `clearScreen`, a demonstration
routine) as an `Event`.  A line is what `scanner.Text()` returns; once the
input is exhausted `Text()` returns the empty string, so an exhausted input is
the line `""` repeated.

`utils.PressEnterToContinue` waits for its acknowledgement through a reader of
its own; it is recorded as a call, and the lines fed to `step` are the ones
the scanner of `main` returns.  The demonstration routines print and return;
a call of one is recorded, its output is not.  `int` is taken to be 64 bits
wide.

Beside the controller the file embeds `utils.GetUserChoice`, the read of
`utils.PressEnterToContinue` on a standard input given as bytes, and the
methods of package `examples` on `BehPaymentMethod`, `BehSeason`,
`StrHttpStatus` and `CompFileHandler`; there `none` stands for a run-time
panic.
-/

namespace Explorer

/-! ## Library functions used by the controller -/

/-- Go `unicode.IsSpace`: the characters `strings.TrimSpace` removes. -/
def isSpace (c : Char) : Bool :=
  c = '\t' || c = '\n' || c = '\x0b' || c = '\x0c' || c = '\r' || c = ' ' ||
  c.toNat = 0x85 || c.toNat = 0xA0 || c.toNat = 0x1680 ||
  (0x2000 ≤ c.toNat && c.toNat ≤ 0x200A) ||
  c.toNat = 0x2028 || c.toNat = 0x2029 || c.toNat = 0x202F ||
  c.toNat = 0x205F || c.toNat = 0x3000

/-- Go `strings.TrimSpace`: drop leading and trailing white space. -/
def TrimSpace (s : String) : String :=
  ⟨((s.data.dropWhile isSpace).reverse.dropWhile isSpace).reverse⟩

/-- Decimal digits of `strconv.Atoi`: every character must be `0`..`9`. -/
def parseDigits : List Char → Nat → Option Nat
  | [], acc => some acc
  | c :: cs, acc =>
    if c.isDigit then parseDigits cs (acc * 10 + (c.toNat - '0'.toNat)) else none

/-- Go `strconv.Atoi` for a 64-bit `int`: an optional sign followed by at least
one decimal digit, the value within the range of `int`; `none` stands for a
non-nil error. -/
def Atoi (s : String) : Option Int :=
  let signed : Bool × List Char :=
    match s.data with
    | '-' :: r => (true, r)
    | '+' :: r => (false, r)
    | r => (false, r)
  match signed.2 with
  | [] => none
  | ds =>
    match parseDigits ds 0 with
    | none => none
    | some n =>
      let v : Int := if signed.1 then -(n : Int) else (n : Int)
      if -(2 : Int) ^ 63 ≤ v ∧ v ≤ (2 : Int) ^ 63 - 1 then some v else none

/-! ## Collaborators and the trace of calls -/

/-- The demonstration routines of package `examples` that `exampleFunctions`
refers to. -/
inductive Routine
  | BasicInterfaces
  | InterfaceImplementation
  | EmptyInterface
  | TypeAssertion
  | InterfaceComposition
  | BasicEnums
  | IotaEnums
  | StringEnums
  | BehaviorEnums
  deriving DecidableEq, Repr

/-- An argument of `fmt.Printf`. -/
inductive Arg
  | int (n : Int)
  | str (s : String)
  /-- The Go string `string(p)` of a byte slice `p`, given by its bytes. -/
  | bytes (p : List Char)
  deriving DecidableEq, Repr

/-- One call made by the controller to a collaborator, with its arguments. -/
inductive Event
  /-- Function `clearScreen` of main.go. -/
  | clearScreen
  /-- Function `utils.PrintColoredTitle(title, color)`. -/
  | PrintColoredTitle (title color : String)
  /-- Function `fmt.Print(s)`. -/
  | Print (s : String)
  /-- Function `fmt.Println(s)`. -/
  | Println (s : String)
  /-- Function `fmt.Printf(format, args...)`. -/
  | Printf (format : String) (args : List Arg)
  /-- Function `utils.PressEnterToContinue()`. -/
  | PressEnterToContinue
  /-- The call `fn()` of a routine found in `exampleFunctions`. -/
  | call (fn : Routine)
  deriving DecidableEq, Repr

/-- Constant `utils.ColorGreen`. -/
def ColorGreen : String := "\x1b[32m"
/-- Constant `utils.ColorYellow`. -/
def ColorYellow : String := "\x1b[33m"
/-- Constant `utils.ColorBlue`. -/
def ColorBlue : String := "\x1b[34m"
/-- Constant `utils.ColorMagenta`. -/
def ColorMagenta : String := "\x1b[35m"
/-- Constant `utils.ColorCyan`. -/
def ColorCyan : String := "\x1b[36m"

/-! ## The registry (main.go lines 17-44) -/

/-- A Go map with string keys, as the list of its entries. -/
abbrev GoMap (β : Type) := List (String × β)

/-- The two package-level tables the controller reads. -/
structure Registry where
  topics : GoMap (List String)
  exampleFunctions : GoMap Routine

/-- Go `m[k]` on a map of slices: the nil slice when the key is absent. -/
def index (m : GoMap (List String)) (k : String) : List String :=
  (m.lookup k).getD []

/-- Variable `topics` of main.go. -/
def topics : GoMap (List String) :=
  [ ("interfaces",
      [ "Basic Interfaces",
        "Interface Implementation",
        "Empty Interface",
        "Type Assertion",
        "Interface Composition" ]),
    ("enums",
      [ "Basic Enums",
        "Iota Enums",
        "String Enums",
        "Behavior Enums" ]) ]

/-- Variable `exampleFunctions` of main.go. -/
def exampleFunctions : GoMap Routine :=
  [ ("Basic Interfaces", .BasicInterfaces),
    ("Interface Implementation", .InterfaceImplementation),
    ("Empty Interface", .EmptyInterface),
    ("Type Assertion", .TypeAssertion),
    ("Interface Composition", .InterfaceComposition),
    ("Basic Enums", .BasicEnums),
    ("Iota Enums", .IotaEnums),
    ("String Enums", .StringEnums),
    ("Behavior Enums", .BehaviorEnums) ]

/-- The registry the program ships with. -/
def shipped : Registry := ⟨topics, exampleFunctions⟩

/-! ## The controller -/

/-- Where the program is blocked on `scanner.Scan()`, with the live locals. -/
inductive State
  /-- Blocked at main.go:55, in the loop of `main`. -/
  | Root
  /-- Blocked at main.go:124, in iteration `i` of the loop of `tutorialMode`. -/
  | TutorialAt (i : Nat)
  /-- Blocked at main.go:149, in the outer loop of `browseExamples`. -/
  | BrowseCategoryMenu
  /-- Blocked at main.go:182, in the inner loop of `browseExamples`. -/
  | BrowseTopicMenu (topicList : List String) (categoryTitle : String)
  /-- After the `break` of main.go:60: `main` has returned. -/
  | Terminated
  /-- After a run-time panic (a slice index out of range). -/
  | Panicked
  deriving DecidableEq, Repr

/-- Function `displayWelcome` (main.go lines 78-88). -/
def displayWelcome : List Event :=
  [ .PrintColoredTitle "Welcome to Go Interface & Enum Explorer" ColorCyan,
    .Println "This interactive tool will help you learn about interfaces and enums in Go.",
    .Println "You'll see examples ranging from basic concepts to advanced usage patterns.",
    .Println "\nEach example includes:",
    .Println "- Explanation of the concept",
    .Println "- Sample code with comments",
    .Println "- Output of the code execution",
    .Println "\nLet's begin exploring Go's powerful interface system and enum patterns!",
    .PressEnterToContinue ]

/-- Function `displayMainMenu` (main.go lines 90-97). -/
def displayMainMenu : List Event :=
  [ .clearScreen,
    .PrintColoredTitle "Main Menu" ColorGreen,
    .Println "1. Start Tutorial (guided journey)",
    .Println "2. Browse Examples (pick specific topics)",
    .Println "3. Help",
    .Println "q. Quit" ]

/-- Function `displayHelp` (main.go lines 211-232). -/
def displayHelp : List Event :=
  [ .clearScreen,
    .PrintColoredTitle "Help" ColorMagenta,
    .Println "How to use this tool:",
    .Println "1. Tutorial Mode: Guides you through all examples in a logical order.",
    .Println "2. Browse Examples: Pick specific topics you're interested in.",
    .Println "\nAbout Go Interfaces:",
    .Println "- Interfaces in Go define behavior, not structure.",
    .Println "- Types implement interfaces implicitly (no 'implements' keyword).",
    .Println "- Interfaces can be composed of other interfaces.",
    .Println "- The empty interface (interface\x7b\x7d) can hold values of any type.",
    .Println "\nAbout Go Enums:",
    .Println "- Go doesn't have built-in enums, but provides patterns to implement them.",
    .Println "- The iota identifier is used to create incrementing constants.",
    .Println "- Type safety can be achieved with custom types and constants.",
    .Println "- String representations can be added with methods.",
    .Println "\nTip: Running the examples and reviewing the code is the best way to learn!" ]

/-- The head of the loop of `main` (main.go lines 53-55): show the menu and
block on the scanner. -/
def mainLoop : List Event × State :=
  (displayMainMenu ++ [.Print "\nEnter your choice (or 'q' to quit): "], .Root)

/-- A callee of `main` either blocks on the scanner (`some`) or returns
(`none`); when it returns, the loop of `main` starts its next iteration. -/
def thenMain (r : List Event × Option State) : List Event × State :=
  match r.2 with
  | some s => (r.1, s)
  | none => (r.1 ++ mainLoop.1, mainLoop.2)

/-- The dispatch shared by both modes (main.go lines 111-115 and 200-204):
call the routine registered for `topic`, or print the placeholder. -/
def runExample (reg : Registry) (topic : String) : List Event :=
  match reg.exampleFunctions.lookup topic with
  | some fn => [.call fn]
  | none => [.Printf "Example for %s is not implemented yet.\n" [.str topic]]

/-- Local `allTopics` of `tutorialMode` (main.go lines 100-104). -/
def allTopics (reg : Registry) : List String :=
  ([] ++ index reg.topics "interfaces") ++ index reg.topics "enums"

/-- Text of `fmt.Sprintf("Tutorial (%d/%d): %s", i+1, len(allTopics), topic)`. -/
def tutorialTitle (i n : Nat) (topic : String) : String :=
  "Tutorial (" ++ toString (i + 1) ++ "/" ++ toString n ++ "): " ++ topic

/-- One topic shown by `tutorialMode` (main.go lines 107-115): the title with
the position `i+1` of `n`, then the dispatch. -/
def tutorialShow (reg : Registry) (n i : Nat) (topic : String) : List Event :=
  [.clearScreen, .PrintColoredTitle (tutorialTitle i n topic) ColorYellow]
    ++ runExample reg topic

/-- The navigation options of `tutorialMode` (main.go lines 119-122). -/
def tutorialOptions : List Event :=
  [ .Println "\nOptions:",
    .Println "n - Next example",
    .Println "m - Return to main menu",
    .Print "\nYour choice: " ]

/-- The completion message of `tutorialMode` (main.go line 132). -/
def completion : Event :=
  .Println "\nCongratulations! You've completed all the tutorials."

/-- The `for i, topic := range allTopics` loop of `tutorialMode` (main.go lines
106-135) from iteration `i` on, `rest` being the topics from index `i` and `n`
being `len(allTopics)`; it runs until the next `scanner.Scan()` (result
`some (TutorialAt i)`) or until the range is exhausted (result `none`). -/
def tutorialLoop (reg : Registry) (n : Nat) : Nat → List String → List Event × Option State
  | _, [] => ([], none)
  | i, topic :: rest =>
    if i < n - 1 then
      (tutorialShow reg n i topic ++ tutorialOptions, some (.TutorialAt i))
    else
      let r := tutorialLoop reg n (i + 1) rest
      (tutorialShow reg n i topic ++ [completion, .PressEnterToContinue] ++ r.1, r.2)

/-- Function `tutorialMode` from its entry to its first `scanner.Scan()`. -/
def tutorialMode (reg : Registry) : List Event × Option State :=
  tutorialLoop reg (allTopics reg).length 0 (allTopics reg)

/-- Function `tutorialMode` resumed in iteration `i` with the line read at
main.go:124: `m`/`M` breaks out of the loop, anything else lets the range
continue with iteration `i + 1`. -/
def tutorialResume (reg : Registry) (i : Nat) (text : String) : List Event × Option State :=
  let choice := TrimSpace text
  if choice = "m" ∨ choice = "M" then ([], none)
  else tutorialLoop reg (allTopics reg).length (i + 1) ((allTopics reg).drop (i + 1))

/-- The head of the outer loop of `browseExamples` (main.go lines 140-149). -/
def categoryMenu : List Event × State :=
  ([ .clearScreen,
     .PrintColoredTitle "Browse Examples" ColorBlue,
     .Println "Categories:",
     .Println "1. Interfaces",
     .Println "2. Enums",
     .Println "b. Back to Main Menu",
     .Print "\nSelect a category (or 'b' to go back): " ],
   .BrowseCategoryMenu)

/-- The loop `for i, topic := range topicList` of main.go lines 176-178, from
index `i` on. -/
def listTopics : Nat → List String → List Event
  | _, [] => []
  | i, topic :: rest =>
    .Printf "%d. %s\n" [.int (i + 1), .str topic] :: listTopics (i + 1) rest

/-- The head of the inner loop of `browseExamples` (main.go lines 173-182). -/
def topicMenu (topicList : List String) (categoryTitle : String) : List Event × State :=
  ([.clearScreen, .PrintColoredTitle (categoryTitle ++ " Examples") ColorBlue]
     ++ listTopics 0 topicList
     ++ [ .Println "b. Back to Categories",
          .Print "\nSelect an example (or 'b' to go back): " ],
   .BrowseTopicMenu topicList categoryTitle)

/-- Function `browseExamples` from its entry to its first `scanner.Scan()`. -/
def browseExamples : List Event × Option State :=
  (categoryMenu.1, some categoryMenu.2)

/-- Function `browseExamples` resumed with the line read at main.go:149
(lines 150-173). -/
def browseCategory (reg : Registry) (text : String) : List Event × Option State :=
  let category := TrimSpace text
  if category = "b" ∨ category = "B" then ([], none)
  else if category = "1" then
    ((topicMenu (index reg.topics "interfaces") "Interfaces").1,
     some (topicMenu (index reg.topics "interfaces") "Interfaces").2)
  else if category = "2" then
    ((topicMenu (index reg.topics "enums") "Enums").1,
     some (topicMenu (index reg.topics "enums") "Enums").2)
  else
    ([.Println "Invalid category. Please try again.", .PressEnterToContinue]
       ++ categoryMenu.1,
     some categoryMenu.2)

/-- Function `browseExamples` resumed with the line read at main.go:182
(lines 183-207). -/
def browseTopic (reg : Registry) (topicList : List String) (categoryTitle : String)
    (text : String) : List Event × State :=
  let topicChoice := TrimSpace text
  if topicChoice = "b" ∨ topicChoice = "B" then categoryMenu
  else
    let invalid : List Event × State :=
      ([.Println "Invalid selection. Please try again.", .PressEnterToContinue]
         ++ (topicMenu topicList categoryTitle).1,
       (topicMenu topicList categoryTitle).2)
    match Atoi topicChoice with
    | none => invalid
    | some topicIndex =>
      if topicIndex < 1 ∨ topicIndex > (topicList.length : Int) then invalid
      else
        match topicList[(topicIndex - 1).toNat]? with
        | none => ([], .Panicked)
        | some selectedTopic =>
          ([.clearScreen, .PrintColoredTitle selectedTopic ColorYellow]
             ++ runExample reg selectedTopic
             ++ [.PressEnterToContinue]
             ++ (topicMenu topicList categoryTitle).1,
           (topicMenu topicList categoryTitle).2)

/-- Function `main` from its entry to its first `scanner.Scan()` (main.go
lines 46-55). -/
def start : List Event × State :=
  ([.clearScreen] ++ displayWelcome ++ mainLoop.1, mainLoop.2)

/-- The program resumed in state `s` with the line `text` that
`scanner.Text()` returns: the calls made up to the next `scanner.Scan()` and
the state it blocks in. -/
def step (reg : Registry) : State → String → List Event × State
  | .Root, text =>
    let choice := TrimSpace text
    if choice = "q" ∨ choice = "Q" then
      ([.Println "Thank you for learning Go interfaces and enums. Happy coding!"],
       .Terminated)
    else if choice = "1" then thenMain (tutorialMode reg)
    else if choice = "2" then thenMain browseExamples
    else if choice = "3" then
      (displayHelp ++ [.PressEnterToContinue] ++ mainLoop.1, mainLoop.2)
    else
      ([.Println "Invalid choice. Please try again.", .PressEnterToContinue]
         ++ mainLoop.1,
       mainLoop.2)
  | .TutorialAt i, text => thenMain (tutorialResume reg i text)
  | .BrowseCategoryMenu, text => thenMain (browseCategory reg text)
  | .BrowseTopicMenu topicList categoryTitle, text =>
    browseTopic reg topicList categoryTitle text
  | .Terminated, _ => ([], .Terminated)
  | .Panicked, _ => ([], .Panicked)

/-- The program resumed in state `s` and fed the lines `input` one after the
other. -/
def run (reg : Registry) : State → List String → List Event × State
  | s, [] => ([], s)
  | s, text :: rest =>
    let r := step reg s text
    let r2 := run reg r.2 rest
    (r.1 ++ r2.1, r2.2)

/-- The program having made the calls `r.1` and being blocked in `r.2`, then
fed the lines `input`. -/
def resume (reg : Registry) (r : List Event × State) (input : List String) :
    List Event × State :=
  (r.1 ++ (run reg r.2 input).1, (run reg r.2 input).2)

/-- The routines registered for the topics of a list, in the order of the
list. -/
def routinesOf (reg : Registry) (l : List String) : List Routine :=
  l.filterMap (fun t => reg.exampleFunctions.lookup t)

/-- The token `m` or `M` of the tutorial. -/
def isMenuToken (text : String) : Prop :=
  TrimSpace text = "m" ∨ TrimSpace text = "M"

instance (text : String) : Decidable (isMenuToken text) := by
  unfold isMenuToken; exact inferInstance

/-- The routines called in a trace, in order. -/
def calls : List Event → List Routine
  | [] => []
  | .call fn :: es => fn :: calls es
  | _ :: es => calls es


/-! ## Predicates used by the statements -/

/-- The event of the placeholder branch (main.go lines 114 and 203). -/
def isPlaceholder : Event → Bool
  | .Printf format _ => format == "Example for %s is not implemented yet.\n"
  | _ => false

/-- A trace in which the placeholder branch was never taken. -/
def Clean (es : List Event) : Prop := ∀ e ∈ es, isPlaceholder e = false

/-- Every topic of the list is a key of `exampleFunctions`. -/
def Registered (reg : Registry) (l : List String) : Prop :=
  ∀ t ∈ l, (reg.exampleFunctions.lookup t).isSome = true

/-- The list a topic menu shows holds registered topics only. -/
def TopicsRegistered (reg : Registry) : State → Prop
  | .BrowseTopicMenu topicList _ => Registered reg topicList
  | _ => True

/-- The token `q` or `Q` of the main menu. -/
def isQuitToken (text : String) : Prop :=
  TrimSpace text = "q" ∨ TrimSpace text = "Q"

instance (text : String) : Decidable (isQuitToken text) := by
  unfold isQuitToken; exact inferInstance

/-- The events of the dispatch (main.go lines 111-115 and 200-204): the call
of a routine, or the placeholder. -/
def isDispatch : Event → Bool
  | .call _ => true
  | e => isPlaceholder e

/-- A trace without the events of the dispatch: the menus, titles, messages
and acknowledgements. -/
def navigation (es : List Event) : List Event :=
  es.filter (fun e => !isDispatch e)

/-- The keys of a Go map. -/
def keys {β : Type} (m : GoMap β) : List String := m.map Prod.fst

/-! ## Package `utils`: the choice helper (interactive.go) -/

/-- Function `utils.GetUserInput` (interactive.go lines 17-22): print the
prompt, read a line and trim it; `line` is what `reader.ReadString` returns. -/
def GetUserInput (prompt line : String) : List Event × String :=
  ([.Print prompt], TrimSpace line)

/-- The loop `for i, option := range options` of interactive.go lines 26-28,
from index `i` on. -/
def listOptions : Nat → List String → List Event
  | _, [] => []
  | i, option :: rest =>
    .Printf "%d. %s\n" [.int (i + 1), .str option] :: listOptions (i + 1) rest

/-- Function `utils.GetUserChoice` (interactive.go lines 25-45).  The library
call `fmt.Sscanf(input, "%d", &choice)` is the parameter `Sscanf`: it yields
an error, or the integer it stored in `choice`.  The result is the pair the
function returns, `none` standing for the nil error. -/
def GetUserChoice (Sscanf : String → Except String Int) (prompt : String)
    (options : List String) (line : String) : List Event × (Int × Option String) :=
  let shown := listOptions 0 options
  let input := GetUserInput prompt line
  match Sscanf input.2 with
  | .error err => (shown ++ input.1, (0, some err))
  | .ok choice =>
    if choice < 1 ∨ choice > (options.length : Int) then
      (shown ++ input.1, (0, some ("invalid choice: " ++ toString choice)))
    else
      (shown ++ input.1, (choice, none))

/-! ## Package `utils`: the acknowledgement and the standard input -/

/-- The call `os.Stdin.Read(buf)` with `len(buf) = size`, for a standard input
that is a file, or a pipe that already holds all its bytes: it yields the next
`min(size, remaining)` bytes.  Result: the bytes read and the input left. -/
def readStdin (size : Nat) (stdin : List Char) : List Char × List Char :=
  (stdin.take size, stdin.drop size)

/-- Size of the buffer of `bufio.NewReader`. -/
def defaultBufSize : Nat := 4096

/-- The bytes of `chunk` up to and including its first newline. -/
def throughNewline : List Char → List Char
  | [] => []
  | c :: cs => if c = '\n' then [c] else c :: throughNewline cs

/-- The call `bufio.NewReader(os.Stdin).ReadBytes('\n')` of
`utils.PressEnterToContinue` (interactive.go line 13): the new reader fills
its buffer with one `Read`, and again while the buffer holds no newline, until
a newline was read or the input has ended; it returns the bytes through the
newline, and what it has read beyond the newline is lost with the reader.
`fuel` bounds the number of `Read` calls.  Result: the bytes returned and the
standard input left for later readers. -/
def readBytesNewReader : Nat → List Char → List Char × List Char
  | 0, stdin => ([], stdin)
  | fuel + 1, stdin =>
    let chunk := readStdin defaultBufSize stdin
    if chunk.1 = [] then ([], chunk.2)
    else if '\n' ∈ chunk.1 then (throughNewline chunk.1, chunk.2)
    else
      let r := readBytesNewReader fuel chunk.2
      (chunk.1 ++ r.1, r.2)

/-- The standard input left by one call of `utils.PressEnterToContinue`. -/
def stdinAfterPressEnter (stdin : List Char) : List Char :=
  (readBytesNewReader (stdin.length + 1) stdin).2

/-- The standard input that follows the first line: what is left when a
reader takes the input up to and including the next newline and nothing
beyond it. -/
def afterFirstLine : List Char → List Char
  | [] => []
  | c :: cs => if c = '\n' then cs else afterFirstLine cs

/-! ## Package `examples`: the types the claims are about -/

/-- Go `s[i]` on a slice with an `int` index: `none` stands for the run-time
panic "index out of range". -/
def sliceIndex (s : List String) (i : Int) : Option String :=
  if 0 ≤ i then s[i.toNat]? else none

/-- Method `BehPaymentMethod.String` (behavior_enums.go lines 19-31); `none`
stands for a run-time panic. -/
def BehPaymentMethod.String (p : Int) : Option String :=
  let names := ["Credit Card", "PayPal", "Bank Transfer", "Cryptocurrency"]
  if p < (names.length : Int) then sliceIndex names p
  else some ("Unknown Payment Method(" ++ toString p ++ ")")

/-- Method `BehSeason.MonthsInNorthernHemisphere` (behavior_enums.go lines
83-96); the constants `BehSpring` .. `BehWinter` are 0 .. 3. -/
def BehSeason.MonthsInNorthernHemisphere (s : Int) : List String :=
  if s = 0 then ["March", "April", "May"]
  else if s = 1 then ["June", "July", "August"]
  else if s = 2 then ["September", "October", "November"]
  else if s = 3 then ["December", "January", "February"]
  else []

/-- Method `BehSeason.String` (behavior_enums.go lines 75-81); `none` stands
for a run-time panic. -/
def BehSeason.String (s : Int) : Option String :=
  let names := ["Spring", "Summer", "Autumn", "Winter"]
  if s < (names.length : Int) then sliceIndex names s
  else some ("Unknown Season(" ++ toString s ++ ")")

/-- Method `StrHttpStatus.IsSuccess` (string_enums.go lines 64-66). -/
def StrHttpStatus.IsSuccess (s : Int) : Bool := decide (s ≥ 200) && decide (s < 300)

/-- Method `StrHttpStatus.IsError` (string_enums.go lines 68-70). -/
def StrHttpStatus.IsError (s : Int) : Bool := decide (s ≥ 400)

/-- Method `StrHttpStatus.IsClientError` (string_enums.go lines 72-74). -/
def StrHttpStatus.IsClientError (s : Int) : Bool := decide (s ≥ 400) && decide (s < 500)

/-- Method `StrHttpStatus.IsServerError` (string_enums.go lines 76-78). -/
def StrHttpStatus.IsServerError (s : Int) : Bool := decide (s ≥ 500)

/-- Struct `CompFileHandler` (interface_composition.go lines 46-50). -/
structure CompFileHandler where
  filename : String
  timeFormat : String
  isOpen : Bool
  deriving DecidableEq, Repr

/-- What a method of `CompFileHandler` with results `(n int, err error)` does:
the results (`none` the nil error), the receiver and the slice `p` afterwards,
and the lines printed. -/
structure CompResult where
  n : Int
  err : Option String
  handler : CompFileHandler
  p : List Char
  printed : List Event
  deriving DecidableEq, Repr

/-- Go `copy(dst, src)`: the number of elements copied and `dst` afterwards. -/
def goCopy (dst src : List Char) : Nat × List Char :=
  (min dst.length src.length,
   src.take (min dst.length src.length) ++ dst.drop (min dst.length src.length))

/-- Method `(*CompFileHandler).Read` (interface_composition.go lines 52-61).
A byte slice is the list of its bytes, each as the character of that code;
the bytes of the message are ASCII characters. -/
def CompFileHandler.Read (f : CompFileHandler) (p : List Char) : CompResult :=
  if !f.isOpen then ⟨0, some "file is not open", f, p, []⟩
  else
    let message := "Hello from file"
    let copied := goCopy p message.data
    ⟨(copied.1 : Int), none, f, copied.2, [.Println ("Reading from " ++ f.filename)]⟩

/-- Method `(*CompFileHandler).Write` (interface_composition.go lines 63-69). -/
def CompFileHandler.Write (f : CompFileHandler) (p : List Char) : CompResult :=
  if !f.isOpen then ⟨0, some "file is not open", f, p, []⟩
  else
    ⟨(p.length : Int), none, f, p,
      [.Printf "Writing to %s: %s\n" [.str f.filename, .bytes p]]⟩

/-- Method `(*CompFileHandler).Close` (interface_composition.go lines 71-75):
the error returned, the receiver afterwards, the line printed. -/
def CompFileHandler.Close (f : CompFileHandler) :
    Option String × CompFileHandler × List Event :=
  (none, { f with isOpen := false }, [.Println ("Closing " ++ f.filename)])

/-- Method `(*CompFileHandler).Open` (interface_composition.go lines 77-81):
the error returned, the receiver afterwards, the line printed. -/
def CompFileHandler.Open (f : CompFileHandler) :
    Option String × CompFileHandler × List Event :=
  (none, { f with isOpen := true }, [.Println ("Opening " ++ f.filename)])

/-- The composite literal `&CompFileHandler{filename: ..., timeFormat: ...}`
(interface_composition.go lines 227-230): the field `isOpen` has its zero
value. -/
def CompFileHandler.new (filename timeFormat : String) : CompFileHandler :=
  ⟨filename, timeFormat, false⟩

/-- The titles shown in yellow in a trace (the tutorial titles and the titles
of selected topics), in order. -/
def yellowTitles : List Event → List String
  | [] => []
  | .PrintColoredTitle title color :: es =>
    if color = ColorYellow then title :: yellowTitles es else yellowTitles es
  | _ :: es => yellowTitles es

/-! ## Helper lemmas -/

theorem clean_nil : Clean [] := by
  intro e he; cases he

theorem clean_append {a b : List Event} (ha : Clean a) (hb : Clean b) : Clean (a ++ b) := by
  intro e he
  rcases List.mem_append.mp he with h | h
  · exact ha e h
  · exact hb e h

theorem clean_cons {e : Event} {es : List Event} (he : isPlaceholder e = false)
    (hes : Clean es) : Clean (e :: es) := by
  intro x hx
  rcases List.mem_cons.mp hx with h | h
  · rw [h]; exact he
  · exact hes x h

theorem clean_displayMainMenu : Clean displayMainMenu := by
  unfold Clean; decide

theorem clean_mainLoop : Clean mainLoop.1 := by
  unfold Clean; decide

theorem clean_displayHelp : Clean displayHelp := by
  unfold Clean; decide

theorem clean_displayWelcome : Clean displayWelcome := by
  unfold Clean; decide

theorem clean_categoryMenu : Clean categoryMenu.1 := by
  unfold Clean; decide

theorem clean_listTopics (l : List String) : ∀ i, Clean (listTopics i l) := by
  induction l with
  | nil => intro i; exact clean_nil
  | cons t ts ih =>
    intro i
    exact clean_cons rfl (ih (i + 1))

theorem clean_topicMenu (l : List String) (c : String) : Clean (topicMenu l c).1 := by
  unfold topicMenu
  exact clean_append (clean_append (clean_cons rfl (clean_cons rfl clean_nil))
    (clean_listTopics l 0)) (by unfold Clean; decide)

theorem clean_runExample {reg : Registry} {t : String}
    (h : (reg.exampleFunctions.lookup t).isSome = true) : Clean (runExample reg t) := by
  unfold runExample
  cases hl : reg.exampleFunctions.lookup t with
  | none => rw [hl] at h; cases h
  | some fn => exact clean_cons rfl clean_nil


theorem clean_thenMain {r : List Event × Option State} (h : Clean r.1) :
    Clean (thenMain r).1 := by
  unfold thenMain
  cases r.2 with
  | none => exact clean_append h clean_mainLoop
  | some s => exact h

theorem clean_tutorialShow {reg : Registry} (n i : Nat) {t : String}
    (h : (reg.exampleFunctions.lookup t).isSome = true) : Clean (tutorialShow reg n i t) :=
  clean_cons rfl (clean_cons rfl (clean_runExample h))

theorem clean_tutorialLoop (reg : Registry) (n : Nat) (rest : List String) :
    ∀ i, Registered reg rest → Clean (tutorialLoop reg n i rest).1 := by
  induction rest with
  | nil => intro i _; exact clean_nil
  | cons t ts ih =>
    intro i h
    have hshow : Clean (tutorialShow reg n i t) :=
      clean_tutorialShow n i (h t (List.mem_cons_self t ts))
    have hts : Registered reg ts := fun x hx => h x (List.mem_cons_of_mem t hx)
    unfold tutorialLoop
    by_cases hi : i < n - 1
    · simp only [hi, if_true]
      exact clean_append hshow (by unfold Clean; decide)
    · simp only [hi, if_false]
      exact clean_append (clean_append hshow (by unfold Clean; decide)) (ih (i + 1) hts)

theorem tutorialLoop_state (reg : Registry) (n : Nat) (rest : List String) :
    ∀ i, ∀ s, (tutorialLoop reg n i rest).2 = some s → ∃ j, s = State.TutorialAt j := by
  induction rest with
  | nil => intro i s h; simp [tutorialLoop] at h
  | cons t ts ih =>
    intro i s h
    unfold tutorialLoop at h
    by_cases hi : i < n - 1
    · simp only [hi, if_true, Option.some.injEq] at h
      exact ⟨i, h.symm⟩
    · simp only [hi, if_false] at h
      exact ih (i + 1) s h

theorem registered_interfaces {reg : Registry} (h : Registered reg (allTopics reg)) :
    Registered reg (index reg.topics "interfaces") := by
  intro t ht
  apply h
  unfold allTopics
  exact List.mem_append_left _ (List.mem_append_right _ ht)

theorem registered_enums {reg : Registry} (h : Registered reg (allTopics reg)) :
    Registered reg (index reg.topics "enums") := by
  intro t ht
  apply h
  unfold allTopics
  exact List.mem_append_right _ ht

theorem topicsRegistered_thenMain {reg : Registry} {r : List Event × Option State}
    (h : ∀ s, r.2 = some s → TopicsRegistered reg s) : TopicsRegistered reg (thenMain r).2 := by
  unfold thenMain
  cases hr : r.2 with
  | none => exact trivial
  | some s => exact h s hr

theorem step_clean (reg : Registry) (h : Registered reg (allTopics reg)) (s : State)
    (text : String) (hs : TopicsRegistered reg s) :
    Clean (step reg s text).1 ∧ TopicsRegistered reg (step reg s text).2 := by
  cases s with
  | Root =>
    simp only [step]
    split_ifs
    · exact ⟨by unfold Clean; decide, trivial⟩
    · refine ⟨clean_thenMain (clean_tutorialLoop reg _ _ 0 h), topicsRegistered_thenMain ?_⟩
      intro s hs2
      obtain ⟨j, rfl⟩ := tutorialLoop_state reg _ _ 0 s hs2
      exact trivial
    · exact ⟨clean_thenMain clean_categoryMenu, trivial⟩
    · exact ⟨clean_append (clean_append clean_displayHelp (by unfold Clean; decide))
        clean_mainLoop, trivial⟩
    · exact ⟨clean_append (by unfold Clean; decide) clean_mainLoop, trivial⟩
  | TutorialAt i =>
    simp only [step, tutorialResume]
    split_ifs
    · exact ⟨clean_thenMain clean_nil, trivial⟩
    · refine ⟨clean_thenMain (clean_tutorialLoop reg _ _ _ ?_), topicsRegistered_thenMain ?_⟩
      · intro t ht
        exact h t (List.mem_of_mem_drop ht)
      · intro s hs2
        obtain ⟨j, rfl⟩ := tutorialLoop_state reg _ _ _ s hs2
        exact trivial
  | BrowseCategoryMenu =>
    simp only [step, browseCategory]
    split_ifs
    · exact ⟨clean_thenMain clean_nil, trivial⟩
    · exact ⟨clean_thenMain (clean_topicMenu _ _), registered_interfaces h⟩
    · exact ⟨clean_thenMain (clean_topicMenu _ _), registered_enums h⟩
    · exact ⟨clean_thenMain (clean_append (by unfold Clean; decide) clean_categoryMenu),
        trivial⟩
  | BrowseTopicMenu topicList categoryTitle =>
    have hinv : Clean ([Event.Println "Invalid selection. Please try again.",
        Event.PressEnterToContinue] ++ (topicMenu topicList categoryTitle).1) :=
      clean_append (by unfold Clean; decide) (clean_topicMenu _ _)
    simp only [step, browseTopic]
    split_ifs
    · exact ⟨clean_categoryMenu, trivial⟩
    · cases Atoi (TrimSpace text) with
      | none => exact ⟨hinv, hs⟩
      | some topicIndex =>
        simp only
        split_ifs
        · exact ⟨hinv, hs⟩
        · cases hsel : topicList[(topicIndex - 1).toNat]? with
          | none => exact ⟨clean_nil, trivial⟩
          | some selectedTopic =>
            have hmem : selectedTopic ∈ topicList := List.getElem?_mem hsel
            refine ⟨?_, hs⟩
            exact clean_append (clean_append (clean_append (clean_cons rfl (clean_cons rfl
              clean_nil)) (clean_runExample (hs selectedTopic hmem)))
              (clean_cons rfl clean_nil)) (clean_topicMenu _ _)
  | Terminated => exact ⟨clean_nil, trivial⟩
  | Panicked => exact ⟨clean_nil, trivial⟩

theorem run_clean (reg : Registry) (h : Registered reg (allTopics reg)) (input : List String) :
    ∀ s, TopicsRegistered reg s → Clean (run reg s input).1 := by
  induction input with
  | nil => intro s _; exact clean_nil
  | cons text rest ih =>
    intro s hs
    have hstep := step_clean reg h s text hs
    simp only [run]
    exact clean_append hstep.1 (ih _ hstep.2)


/-! ## C1: registry completeness -/

theorem registered_shipped : Registered shipped (allTopics shipped) := by
  unfold Registered; decide

theorem clean_start : Clean start.1 := by
  unfold Clean; decide

/-- C1: the map `topics` has exactly the two categories "interfaces" and
"enums", both topic lists are non-empty, every topic name of either list is a
key of `exampleFunctions`, and therefore, whatever lines the user types, the
shipped program never executes the branch that prints
"Example for ... is not implemented yet.". -/
theorem registry_complete :
    topics.map Prod.fst = ["interfaces", "enums"] ∧
    index topics "interfaces" ≠ [] ∧
    index topics "enums" ≠ [] ∧
    (∀ t ∈ index topics "interfaces" ++ index topics "enums",
      t ∈ exampleFunctions.map Prod.fst ∧ (exampleFunctions.lookup t).isSome = true) ∧
    (∀ input : List String, ∀ e ∈ start.1 ++ (run shipped start.2 input).1,
      ∀ args, e ≠ Event.Printf "Example for %s is not implemented yet.\n" args) := by
  refine ⟨by decide, by decide, by decide, by decide, ?_⟩
  intro input e he args heq
  have hclean : Clean (start.1 ++ (run shipped start.2 input).1) :=
    clean_append clean_start (run_clean shipped registered_shipped input start.2 trivial)
  have h := hclean e he
  rw [heq] at h
  simp [isPlaceholder] at h

/-- C1 at a concrete session: tutorial entered, browse entered, topic 3 of
"interfaces" selected. -/
theorem registry_complete_witness :
    Event.call Routine.EmptyInterface ∈
        start.1 ++ (run shipped start.2 ["1", "m", "2", "1", "3"]).1 ∧
      Event.call Routine.EmptyInterface ≠
        Event.Printf "Example for %s is not implemented yet.\n" [Arg.str "Empty Interface"] :=
  ⟨by decide,
   registry_complete.2.2.2.2 ["1", "m", "2", "1", "3"] _ (by decide)
     [Arg.str "Empty Interface"]⟩

/-! ## The tutorial walk -/


theorem calls_append (a b : List Event) : calls (a ++ b) = calls a ++ calls b := by
  induction a with
  | nil => rfl
  | cons e es ih => cases e <;> simp [calls, ih]

theorem calls_runExample (reg : Registry) (t : String) :
    calls (runExample reg t) = (reg.exampleFunctions.lookup t).toList := by
  unfold runExample
  cases reg.exampleFunctions.lookup t <;> rfl

theorem calls_tutorialShow (reg : Registry) (n i : Nat) (t : String) :
    calls (tutorialShow reg n i t) = (reg.exampleFunctions.lookup t).toList := by
  unfold tutorialShow
  rw [calls_append, calls_runExample]
  rfl

theorem calls_listTopics (l : List String) : ∀ i, calls (listTopics i l) = [] := by
  induction l with
  | nil => intro i; rfl
  | cons t ts ih => intro i; simp [listTopics, calls, ih]

theorem calls_topicMenu (l : List String) (c : String) : calls (topicMenu l c).1 = [] := by
  simp [topicMenu, calls_append, calls_listTopics, calls]

theorem calls_mainLoop : calls mainLoop.1 = [] := by decide

theorem calls_categoryMenu : calls categoryMenu.1 = [] := by decide

theorem routinesOf_cons (reg : Registry) (t : String) (l : List String) :
    routinesOf reg (t :: l) = (reg.exampleFunctions.lookup t).toList ++ routinesOf reg l := by
  unfold routinesOf
  cases h : reg.exampleFunctions.lookup t <;> simp [List.filterMap_cons, h]

theorem completion_not_mem_tutorialShow (reg : Registry) (n i : Nat) (t : String) :
    completion ∉ tutorialShow reg n i t := by
  unfold tutorialShow runExample completion
  cases reg.exampleFunctions.lookup t <;> simp

theorem completion_not_mem_tutorialOptions : completion ∉ tutorialOptions := by decide

theorem completion_not_mem_mainLoop : completion ∉ mainLoop.1 := by decide

theorem run_nil (reg : Registry) (s : State) : run reg s [] = ([], s) := rfl

theorem run_cons (reg : Registry) (s : State) (text : String) (rest : List String) :
    run reg s (text :: rest) = resume reg (step reg s text) rest := rfl

theorem resume_nil (reg : Registry) (r : List Event × State) : resume reg r [] = r := by
  simp [resume, run]

theorem resume_resume (reg : Registry) (r : List Event × State) (a b : List String) :
    resume reg (resume reg r a) b = resume reg r (a ++ b) := by
  induction a generalizing r with
  | nil => simp [resume_nil]
  | cons text rest ih =>
    have h1 : resume reg r (text :: rest)
        = resume reg (r.1 ++ (step reg r.2 text).1, (step reg r.2 text).2) rest := by
      simp [resume, run]
    have h2 : resume reg r (text :: rest ++ b)
        = resume reg (r.1 ++ (step reg r.2 text).1, (step reg r.2 text).2) (rest ++ b) := by
      simp [resume, run]
    rw [h1, h2, ih]

theorem run_append (reg : Registry) (s : State) (a b : List String) :
    run reg s (a ++ b) = resume reg (run reg s a) b := by
  have h := resume_resume reg ([], s) a b
  simpa [resume] using h.symm

/-- One blocking iteration of the tutorial followed by a token that is not
`m`/`M`: the loop goes on with the next topic. -/
theorem tutorial_advance (reg : Registry) (i : Nat) (t text : String)
    (rest input : List String) (hi : i < (allTopics reg).length - 1)
    (hm : ¬ isMenuToken text) :
    resume reg (thenMain (tutorialLoop reg (allTopics reg).length i (t :: rest)))
        (text :: input)
      = ((tutorialShow reg (allTopics reg).length i t ++ tutorialOptions) ++
          (resume reg (thenMain (tutorialLoop reg (allTopics reg).length (i + 1)
            ((allTopics reg).drop (i + 1)))) input).1,
         (resume reg (thenMain (tutorialLoop reg (allTopics reg).length (i + 1)
            ((allTopics reg).drop (i + 1)))) input).2) := by
  have hm2 : ¬ (TrimSpace text = "m" ∨ TrimSpace text = "M") := hm
  simp [resume, run, step, tutorialLoop, hi, thenMain, tutorialResume, hm2]



theorem calls_tutorialOptions : calls tutorialOptions = [] := by decide

theorem routinesOf_nil (reg : Registry) : routinesOf reg [] = [] := rfl

theorem drop_succ_of_drop_cons {α : Type} {l : List α} {i : Nat} {t : α} {rest : List α}
    (h : l.drop i = t :: rest) : l.drop (i + 1) = rest := by
  have h2 : l.drop (i + 1) = (l.drop i).drop 1 := by
    rw [List.drop_drop, Nat.add_comm]
  rw [h2, h, List.drop_succ_cons, List.drop_zero]

theorem length_of_drop_eq {α : Type} {l rest : List α} {i : Nat}
    (h : l.drop i = rest) : rest.length = l.length - i := by
  rw [← h, List.length_drop]

/-- While at least two topics remain after the tokens typed, the tutorial is
still blocked in its loop: it has shown one topic more than tokens were read
and has not shown the completion message. -/
theorem tutorial_midway (reg : Registry) (input : List String) :
    ∀ (i : Nat) (rest : List String), (allTopics reg).drop i = rest →
      input.length + 1 < rest.length → (∀ text ∈ input, ¬ isMenuToken text) →
      (resume reg (thenMain (tutorialLoop reg (allTopics reg).length i rest)) input).2
          = State.TutorialAt (i + input.length) ∧
      calls (resume reg (thenMain (tutorialLoop reg (allTopics reg).length i rest)) input).1
          = routinesOf reg (rest.take (input.length + 1)) ∧
      completion ∉
        (resume reg (thenMain (tutorialLoop reg (allTopics reg).length i rest)) input).1 := by
  induction input with
  | nil =>
    intro i rest hdrop hlen _
    have hn := length_of_drop_eq hdrop
    match rest, hlen with
    | t :: rest2, hlen =>
      have hi : i < (allTopics reg).length - 1 := by
        simp only [List.length_cons, List.length_nil] at hlen hn; omega
      refine ⟨?_, ?_, ?_⟩
      · simp [resume_nil, tutorialLoop, hi, thenMain]
      · simp [resume_nil, tutorialLoop, hi, thenMain, calls_append, calls_tutorialShow,
          routinesOf_cons, routinesOf_nil, calls_tutorialOptions]
      · simp only [resume_nil, tutorialLoop, hi, thenMain, if_true]
        intro hmem
        rcases List.mem_append.mp hmem with h | h
        · exact completion_not_mem_tutorialShow reg _ _ _ h
        · exact completion_not_mem_tutorialOptions h
  | cons text input2 ih =>
    intro i rest hdrop hlen hm
    have hn := length_of_drop_eq hdrop
    match rest, hlen with
    | t :: rest2, hlen =>
      have hi : i < (allTopics reg).length - 1 := by
        simp only [List.length_cons] at hlen hn; omega
      have hm1 : ¬ isMenuToken text := hm text (List.mem_cons_self _ _)
      have hm2 : ∀ x ∈ input2, ¬ isMenuToken x := fun x hx => hm x (List.mem_cons_of_mem _ hx)
      have hdrop2 := drop_succ_of_drop_cons hdrop
      have hlen2 : input2.length + 1 < rest2.length := by
        simp only [List.length_cons] at hlen; omega
      rw [tutorial_advance reg i t text rest2 input2 hi hm1, hdrop2]
      obtain ⟨h1, h2, h3⟩ := ih (i + 1) rest2 hdrop2 hlen2 hm2
      refine ⟨?_, ?_, ?_⟩
      · simp only [h1, List.length_cons]
        congr 1; omega
      · simp only [calls_append, calls_tutorialShow, h2, List.length_cons, List.take_succ_cons,
          routinesOf_cons]
        simp [calls_tutorialOptions]
      · intro hmem
        rcases List.mem_append.mp hmem with h | h
        · rcases List.mem_append.mp h with h | h
          · exact completion_not_mem_tutorialShow reg _ _ _ h
          · exact completion_not_mem_tutorialOptions h
        · exact h3 h

/-- Fed one token less than topics remain, none of them `m`/`M`, the tutorial
shows every remaining topic, then the completion message, and returns to the
loop of `main`. -/
theorem tutorial_full (reg : Registry) (input : List String) :
    ∀ (i : Nat) (rest : List String), (allTopics reg).drop i = rest →
      input.length + 1 = rest.length → (∀ text ∈ input, ¬ isMenuToken text) →
      ∃ shown : List Event,
        (resume reg (thenMain (tutorialLoop reg (allTopics reg).length i rest)) input).1
            = shown ++ [completion, Event.PressEnterToContinue] ++ mainLoop.1 ∧
        (resume reg (thenMain (tutorialLoop reg (allTopics reg).length i rest)) input).2
            = State.Root ∧
        calls shown = routinesOf reg rest ∧
        completion ∉ shown := by
  induction input with
  | nil =>
    intro i rest hdrop hlen _
    have hn := length_of_drop_eq hdrop
    match rest, hlen with
    | [t], hlen =>
      have hi : ¬ i < (allTopics reg).length - 1 := by
        simp only [List.length_cons, List.length_nil] at hn; omega
      refine ⟨tutorialShow reg (allTopics reg).length i t, ?_, ?_, ?_, ?_⟩
      · simp [resume_nil, tutorialLoop, hi, thenMain]
      · simp [resume_nil, tutorialLoop, hi, thenMain, mainLoop]
      · simp [calls_tutorialShow, routinesOf_cons, routinesOf_nil]
      · exact completion_not_mem_tutorialShow reg _ _ _
  | cons text input2 ih =>
    intro i rest hdrop hlen hm
    have hn := length_of_drop_eq hdrop
    match rest, hlen with
    | t :: rest2, hlen =>
      have hi : i < (allTopics reg).length - 1 := by
        simp only [List.length_cons] at hlen hn; omega
      have hm1 : ¬ isMenuToken text := hm text (List.mem_cons_self _ _)
      have hm2 : ∀ x ∈ input2, ¬ isMenuToken x := fun x hx => hm x (List.mem_cons_of_mem _ hx)
      have hdrop2 := drop_succ_of_drop_cons hdrop
      have hlen2 : input2.length + 1 = rest2.length := by
        simp only [List.length_cons] at hlen; omega
      rw [tutorial_advance reg i t text rest2 input2 hi hm1, hdrop2]
      obtain ⟨shown2, h1, h2, h3, h4⟩ := ih (i + 1) rest2 hdrop2 hlen2 hm2
      refine ⟨tutorialShow reg (allTopics reg).length i t ++ tutorialOptions ++ shown2,
        ?_, h2, ?_, ?_⟩
      · simp only [h1, List.append_assoc]
      · simp [calls_append, calls_tutorialShow, calls_tutorialOptions, h3, routinesOf_cons]
      · intro hmem
        rcases List.mem_append.mp hmem with h | h
        · rcases List.mem_append.mp h with h | h
          · exact completion_not_mem_tutorialShow reg _ _ _ h
          · exact completion_not_mem_tutorialOptions h
        · exact h4 h

/-- The token `1` typed at the main menu calls `tutorialMode`. -/
theorem run_root_one (reg : Registry) (text : String) (input : List String)
    (h : TrimSpace text = "1") :
    run reg State.Root (text :: input)
      = resume reg (thenMain (tutorialLoop reg (allTopics reg).length 0 (allTopics reg)))
          input := by
  rw [run_cons]
  simp [step, h, tutorialMode]

theorem routinesOf_get (reg : Registry) (l : List String) (h : Registered reg l) :
    ∀ i : Nat, (routinesOf reg l)[i]?
      = Option.bind l[i]? (fun t => reg.exampleFunctions.lookup t) := by
  induction l with
  | nil => intro i; simp [routinesOf_nil]
  | cons t ts ih =>
    intro i
    have ht : (reg.exampleFunctions.lookup t).isSome = true := h t (List.mem_cons_self _ _)
    have hts : Registered reg ts := fun x hx => h x (List.mem_cons_of_mem _ hx)
    obtain ⟨fn, hfn⟩ := Option.isSome_iff_exists.mp ht
    rw [routinesOf_cons, hfn]
    cases i with
    | zero => simp [hfn]
    | succ j => simpa using ih hts j

theorem routinesOf_shipped :
    routinesOf shipped (allTopics shipped)
      = [Routine.BasicInterfaces, Routine.InterfaceImplementation, Routine.EmptyInterface,
         Routine.TypeAssertion, Routine.InterfaceComposition, Routine.BasicEnums,
         Routine.IotaEnums, Routine.StringEnums, Routine.BehaviorEnums] := by
  decide

/-! ## C2: the sequence the tutorial walks -/

/-- C2: the list `allTopics` that `tutorialMode` walks is `topics["interfaces"]`
followed by `topics["enums"]`, each in its declared order; it has
5 + 4 = 9 elements; and in a full walk (8 tokens, none of them `m`/`M`) the
i-th routine called is the one registered for the i-th element of it. -/
theorem tutorial_sequence :
    allTopics shipped = index topics "interfaces" ++ index topics "enums" ∧
    index topics "interfaces"
      = ["Basic Interfaces", "Interface Implementation", "Empty Interface",
         "Type Assertion", "Interface Composition"] ∧
    index topics "enums" = ["Basic Enums", "Iota Enums", "String Enums", "Behavior Enums"] ∧
    (allTopics shipped).length
      = (index topics "interfaces").length + (index topics "enums").length ∧
    (allTopics shipped).length = 9 ∧
    (∀ input : List String, input.length + 1 = (allTopics shipped).length →
      (∀ text ∈ input, ¬ isMenuToken text) →
      ∀ (i : Nat) (t : String), (allTopics shipped)[i]? = some t →
        (exampleFunctions.lookup t).isSome = true ∧
        (calls (run shipped State.Root ("1" :: input)).1)[i]? = exampleFunctions.lookup t) := by
  refine ⟨by decide, by decide, by decide, by decide, by decide, ?_⟩
  intro input hlen hm i t hit
  obtain ⟨shown, h1, _, h3, _⟩ :=
    tutorial_full shipped input 0 (allTopics shipped) (List.drop_zero _) hlen hm
  rw [run_root_one shipped "1" input (by decide), h1]
  constructor
  · exact registered_shipped t (List.getElem?_mem hit)
  · have hc : calls (shown ++ [completion, Event.PressEnterToContinue] ++ mainLoop.1)
        = routinesOf shipped (allTopics shipped) := by
      rw [calls_append, calls_append, h3, calls_mainLoop]
      simp [calls, completion]
    rw [hc, routinesOf_get shipped _ registered_shipped i, hit]
    rfl

/-- C2 at a concrete walk: eight presses of Enter (empty lines), sixth topic. -/
theorem tutorial_sequence_witness :
    (allTopics shipped)[5]? = some "Basic Enums" ∧
    (calls (run shipped State.Root ["1", "", "", "", "", "", "", "", ""]).1)[5]?
      = some Routine.BasicEnums :=
  ⟨by decide,
   (tutorial_sequence.2.2.2.2.2 ["", "", "", "", "", "", "", ""] (by decide) (by decide)
     5 "Basic Enums" (by decide)).2⟩

/-! ## C3: full tutorial traversal -/

/-- C3: fed N-1 = 8 tokens none of which is `m`/`M`, `tutorialMode` (entered
with `1` from the main menu) calls the routine of each of the 9 topics exactly
once, in order; then prints
"Congratulations! You've completed all the tutorials.", exactly once, waits
for the acknowledgement and returns to the main menu, which is shown again;
and it reads exactly the 8 tokens (after k < 8 of them it is still blocked in
the tutorial, at topic k). -/
theorem tutorial_full_traversal (input : List String)
    (hlen : input.length + 1 = (allTopics shipped).length)
    (hm : ∀ text ∈ input, ¬ isMenuToken text) :
    (∃ shown : List Event,
      (run shipped State.Root ("1" :: input)).1
        = shown
            ++ [Event.Println "\nCongratulations! You've completed all the tutorials.",
                Event.PressEnterToContinue]
            ++ [Event.clearScreen,
                Event.PrintColoredTitle "Main Menu" "\x1b[32m",
                Event.Println "1. Start Tutorial (guided journey)",
                Event.Println "2. Browse Examples (pick specific topics)",
                Event.Println "3. Help",
                Event.Println "q. Quit",
                Event.Print "\nEnter your choice (or 'q' to quit): "] ∧
      calls shown
        = [Routine.BasicInterfaces, Routine.InterfaceImplementation, Routine.EmptyInterface,
           Routine.TypeAssertion, Routine.InterfaceComposition, Routine.BasicEnums,
           Routine.IotaEnums, Routine.StringEnums, Routine.BehaviorEnums] ∧
      Event.Println "\nCongratulations! You've completed all the tutorials." ∉ shown) ∧
    calls (run shipped State.Root ("1" :: input)).1
      = [Routine.BasicInterfaces, Routine.InterfaceImplementation, Routine.EmptyInterface,
           Routine.TypeAssertion, Routine.InterfaceComposition, Routine.BasicEnums,
           Routine.IotaEnums, Routine.StringEnums, Routine.BehaviorEnums] ∧
    (run shipped State.Root ("1" :: input)).1.count
      (Event.Println "\nCongratulations! You've completed all the tutorials.") = 1 ∧
    (run shipped State.Root ("1" :: input)).2 = State.Root ∧
    (∀ k, k < input.length →
      (run shipped State.Root ("1" :: input.take k)).2 = State.TutorialAt k) := by
  have hc : completion
      = Event.Println "\nCongratulations! You've completed all the tutorials." := rfl
  have hml : mainLoop.1
      = [Event.clearScreen,
         Event.PrintColoredTitle "Main Menu" "\x1b[32m",
         Event.Println "1. Start Tutorial (guided journey)",
         Event.Println "2. Browse Examples (pick specific topics)",
         Event.Println "3. Help",
         Event.Println "q. Quit",
         Event.Print "\nEnter your choice (or 'q' to quit): "] := rfl
  obtain ⟨shown, h1, h2, h3, h4⟩ :=
    tutorial_full shipped input 0 (allTopics shipped) (List.drop_zero _) hlen hm
  rw [routinesOf_shipped] at h3
  have hnm := completion_not_mem_mainLoop
  have hcalls := calls_mainLoop
  rw [hc] at h1 h4 hnm
  rw [hml] at h1 hnm hcalls
  rw [run_root_one shipped "1" input (by decide)]
  refine ⟨⟨shown, h1, h3, h4⟩, ?_, ?_, h2, ?_⟩
  · rw [h1, calls_append, calls_append, h3, hcalls]
    simp [calls]
  · rw [h1, List.count_append, List.count_append, List.count_eq_zero_of_not_mem h4,
      List.count_eq_zero_of_not_mem hnm]
    decide
  · intro k hk
    rw [run_root_one shipped "1" (input.take k) (by decide)]
    have hlenk : (input.take k).length = k := by
      rw [List.length_take]; omega
    have h := (tutorial_midway shipped (input.take k) 0 (allTopics shipped)
      (List.drop_zero _) (by rw [hlenk]; omega)
      (fun x hx => hm x (List.mem_of_mem_take hx))).1
    rw [h, hlenk, Nat.zero_add]

/-- C3 at a concrete input: eight times the token `n`. -/
theorem tutorial_full_traversal_witness :
    (run shipped State.Root ["1", "n", "n", "n", "n", "n", "n", "n", "n"]).1.count
        (Event.Println "\nCongratulations! You've completed all the tutorials.") = 1 ∧
      (run shipped State.Root ["1", "n", "n", "n", "n", "n", "n", "n", "n"]).2 = State.Root :=
  ⟨(tutorial_full_traversal ["n", "n", "n", "n", "n", "n", "n", "n"]
      (by decide) (by decide)).2.2.1,
   (tutorial_full_traversal ["n", "n", "n", "n", "n", "n", "n", "n"]
      (by decide) (by decide)).2.2.2.1⟩

/-! ## C4: early exit from the tutorial -/

theorem resume_single (reg : Registry) (r : List Event × State) (text : String) :
    resume reg r [text] = (r.1 ++ (step reg r.2 text).1, (step reg r.2 text).2) := by
  simp [resume, run]

theorem step_tutorial_menu (reg : Registry) (i : Nat) (text : String)
    (h : isMenuToken text) : step reg (State.TutorialAt i) text = mainLoop := by
  have h2 : TrimSpace text = "m" ∨ TrimSpace text = "M" := h
  simp [step, tutorialResume, h2, thenMain]

theorem routinesOf_take (reg : Registry) (l : List String) (h : Registered reg l) :
    ∀ k : Nat, routinesOf reg (l.take k) = (routinesOf reg l).take k := by
  induction l with
  | nil => intro k; simp [routinesOf_nil]
  | cons t ts ih =>
    intro k
    have ht : (reg.exampleFunctions.lookup t).isSome = true := h t (List.mem_cons_self _ _)
    have hts : Registered reg ts := fun x hx => h x (List.mem_cons_of_mem _ hx)
    obtain ⟨fn, hfn⟩ := Option.isSome_iff_exists.mp ht
    cases k with
    | zero => simp [routinesOf_nil]
    | succ j => simp [List.take_succ_cons, routinesOf_cons, hfn, ih hts j]

theorem nodup_routinesOf_shipped : (routinesOf shipped (allTopics shipped)).Nodup := by
  rw [routinesOf_shipped]; decide

/-- C4: when the first k-1 tokens are not `m`/`M` and the k-th token is `m` or
`M`, with 1 ≤ k ≤ N-1, `tutorialMode` calls exactly the routines of the topics
0..k-1, in order (k routines), calls no routine of a topic of index k or more,
does not print the completion message, and returns to the main menu (before
that token it was still blocked in the tutorial, at topic k-1). -/
theorem tutorial_early_exit (before : List String) (text : String)
    (hk : before.length + 1 < (allTopics shipped).length)
    (hm : ∀ x ∈ before, ¬ isMenuToken x) (ht : isMenuToken text) :
    calls (run shipped State.Root ("1" :: (before ++ [text]))).1
      = routinesOf shipped ((allTopics shipped).take (before.length + 1)) ∧
    (calls (run shipped State.Root ("1" :: (before ++ [text]))).1).length
      = before.length + 1 ∧
    (∀ (j : Nat) (t : String) (fn : Routine), before.length + 1 ≤ j →
      (allTopics shipped)[j]? = some t → exampleFunctions.lookup t = some fn →
      fn ∉ calls (run shipped State.Root ("1" :: (before ++ [text]))).1) ∧
    completion ∉ (run shipped State.Root ("1" :: (before ++ [text]))).1 ∧
    (run shipped State.Root ("1" :: before)).2 = State.TutorialAt before.length ∧
    (run shipped State.Root ("1" :: (before ++ [text]))).2 = State.Root := by
  obtain ⟨h1, h2, h3⟩ := tutorial_midway shipped before 0 (allTopics shipped)
    (List.drop_zero _) hk hm
  rw [Nat.zero_add] at h1
  have hrun : run shipped State.Root ("1" :: (before ++ [text]))
      = ((resume shipped (thenMain (tutorialLoop shipped
          (allTopics shipped).length 0 (allTopics shipped))) before).1 ++ mainLoop.1,
         State.Root) := by
    rw [run_root_one shipped "1" (before ++ [text]) (by decide), ← resume_resume,
      resume_single, h1, step_tutorial_menu shipped _ text ht]
    rfl
  have hcalls : calls (run shipped State.Root ("1" :: (before ++ [text]))).1
      = routinesOf shipped ((allTopics shipped).take (before.length + 1)) := by
    rw [hrun, calls_append, h2, calls_mainLoop, List.append_nil]
  have htake := routinesOf_take shipped (allTopics shipped) registered_shipped
    (before.length + 1)
  refine ⟨hcalls, ?_, ?_, ?_, ?_, ?_⟩
  · rw [hcalls, htake, List.length_take, routinesOf_shipped]
    have hk9 : before.length + 1 < 9 := hk
    simp only [List.length_cons, List.length_nil]
    omega
  · intro j t fn hj hjt hfn
    rw [hcalls, htake]
    have hget : (routinesOf shipped (allTopics shipped))[j]? = some fn := by
      rw [routinesOf_get shipped _ registered_shipped j, hjt]
      exact hfn
    have hdrop : fn ∈ (routinesOf shipped (allTopics shipped)).drop j := by
      apply List.getElem?_mem (n := 0)
      rw [List.getElem?_drop]
      exact hget
    intro htk
    exact List.disjoint_take_drop nodup_routinesOf_shipped hj htk hdrop
  · rw [hrun]
    intro hmem
    rcases List.mem_append.mp hmem with h | h
    · exact h3 h
    · exact completion_not_mem_mainLoop h
  · rw [run_root_one shipped "1" before (by decide)]
    exact h1
  · rw [hrun]

/-- C4 at a concrete input: two topics passed with `n`, then `M` at the
third. -/
theorem tutorial_early_exit_witness :
    calls (run shipped State.Root ["1", "n", "n", " M "]).1
        = [Routine.BasicInterfaces, Routine.InterfaceImplementation, Routine.EmptyInterface] ∧
      completion ∉ (run shipped State.Root ["1", "n", "n", " M "]).1 ∧
      (run shipped State.Root ["1", "n", "n", " M "]).2 = State.Root :=
  ⟨(tutorial_early_exit ["n", "n"] " M " (by decide) (by decide) (by decide)).1,
   (tutorial_early_exit ["n", "n"] " M " (by decide) (by decide) (by decide)).2.2.2.1,
   (tutorial_early_exit ["n", "n"] " M " (by decide) (by decide) (by decide)).2.2.2.2.2⟩

/-! ## The library models on decimal numerals -/

theorem digitChar_isDigit (m : Nat) (h : m < 10) :
    (Nat.digitChar m).isDigit = true ∧ (Nat.digitChar m).toNat - '0'.toNat = m := by
  interval_cases m <;> decide

theorem parseDigits_toDigitsCore (fuel : Nat) :
    ∀ (n : Nat) (ds : List Char), n < fuel →
      parseDigits (Nat.toDigitsCore 10 fuel n ds) 0 = parseDigits ds n := by
  induction fuel with
  | zero => intro n ds h; omega
  | succ f ih =>
    intro n ds h
    have hd := digitChar_isDigit (n % 10) (Nat.mod_lt _ (by decide))
    unfold Nat.toDigitsCore
    by_cases h0 : n / 10 = 0
    · simp only [h0, if_true]
      have hn : n % 10 = n := by omega
      have hd2 := digitChar_isDigit n (by omega)
      simp only [parseDigits, hd2.1, if_true, hd2.2, Nat.zero_mul, Nat.zero_add, hn]
    · simp only [h0, if_false]
      rw [ih (n / 10) _ (by omega)]
      simp only [parseDigits, hd.1, if_true, hd.2]
      congr 1
      omega

theorem parseDigits_toString (n : Nat) : parseDigits (toString n).data 0 = some n := by
  have h := parseDigits_toDigitsCore (n + 1) n [] (Nat.lt_succ_self n)
  simpa [parseDigits] using h

theorem parseDigits_all_digits (l : List Char) :
    ∀ (acc v : Nat), parseDigits l acc = some v → ∀ c ∈ l, c.isDigit = true := by
  induction l with
  | nil => intro _ _ _ c hc; cases hc
  | cons x xs ih =>
    intro acc v h c hc
    unfold parseDigits at h
    by_cases hx : x.isDigit = true
    · simp only [hx, if_true] at h
      rcases List.mem_cons.mp hc with rfl | hmem
      · exact hx
      · exact ih _ v h c hmem
    · simp [hx] at h

theorem toString_data_ne_nil (n : Nat) : (toString n).data ≠ [] := by
  intro h
  have : (Nat.toDigits 10 n).length = 0 := by
    have h2 : (toString n).data = Nat.toDigits 10 n := rfl
    rw [← h2, h]; rfl
  unfold Nat.toDigits Nat.toDigitsCore at this
  by_cases h0 : n / 10 = 0
  · simp [h0] at this
  · simp only [h0, if_false] at this
    rw [Nat.toDigitsCore_lens_eq] at this
    omega

/-- The model of `strconv.Atoi` reads the decimal numeral of every natural
number in the range of `int` as that number. -/
theorem atoi_toString (n : Nat) (h : n < 2 ^ 63) : Atoi (toString n) = some (n : Int) := by
  have hp := parseDigits_toString n
  have hne := toString_data_ne_nil n
  have hall := parseDigits_all_digits _ 0 n hp
  unfold Atoi
  match hdata : (toString n).data with
  | [] => exact absurd hdata hne
  | c :: cs =>
    have hc : c.isDigit = true := hall c (by rw [hdata]; exact List.mem_cons_self _ _)
    have hminus : c ≠ '-' := by rintro rfl; exact absurd hc (by decide)
    have hplus : c ≠ '+' := by rintro rfl; exact absurd hc (by decide)
    rw [hdata] at hp
    have hr : (2 : Int) ^ 63 = 9223372036854775808 := by norm_num
    have hn : (n : Int) < 9223372036854775808 := by
      have : (2 : Nat) ^ 63 = 9223372036854775808 := by norm_num
      omega
    split
    · rename_i heq; simp at heq; exact absurd heq.1 hminus
    · rename_i heq; simp at heq; exact absurd heq.1 hplus
    · simp only [hp, hr]
      simp
      omega

theorem isDigit_range (c : Char) (h : c.isDigit = true) : 48 ≤ c.toNat ∧ c.toNat ≤ 57 := by
  unfold Char.isDigit at h
  simp only [Bool.and_eq_true, decide_eq_true_eq, ge_iff_le] at h
  have h1 : (48 : UInt32).toNat ≤ c.val.toNat := h.1
  have h2 : c.val.toNat ≤ (57 : UInt32).toNat := h.2
  exact ⟨h1, h2⟩

theorem isSpace_of_isDigit (c : Char) (h : c.isDigit = true) : isSpace c = false := by
  have hr := isDigit_range c h
  have e1 : c ≠ '\t' := by rintro rfl; exact absurd h (by decide)
  have e2 : c ≠ '\n' := by rintro rfl; exact absurd h (by decide)
  have e3 : c ≠ '\x0b' := by rintro rfl; exact absurd h (by decide)
  have e4 : c ≠ '\x0c' := by rintro rfl; exact absurd h (by decide)
  have e5 : c ≠ '\r' := by rintro rfl; exact absurd h (by decide)
  have e6 : c ≠ ' ' := by rintro rfl; exact absurd h (by decide)
  unfold isSpace
  simp [e1, e2, e3, e4, e5, e6]
  omega

theorem dropWhile_isSpace_of_digits (l : List Char) (h : ∀ c ∈ l, c.isDigit = true) :
    l.dropWhile isSpace = l := by
  cases l with
  | nil => rfl
  | cons x xs =>
    rw [List.dropWhile_cons, isSpace_of_isDigit x (h x (List.mem_cons_self _ _))]
    rfl

theorem trimSpace_of_digits (s : String) (h : ∀ c ∈ s.data, c.isDigit = true) :
    TrimSpace s = s := by
  unfold TrimSpace
  rw [dropWhile_isSpace_of_digits _ h,
    dropWhile_isSpace_of_digits _ (fun c hc => h c (List.mem_reverse.mp hc)),
    List.reverse_reverse]

theorem trimSpace_toString (n : Nat) : TrimSpace (toString n) = toString n :=
  trimSpace_of_digits _ (parseDigits_all_digits _ 0 n (parseDigits_toString n))

/-! ## C5 - C7: selections in the browse menus -/

theorem atoi_b : Atoi "b" = none := by decide

theorem atoi_B : Atoi "B" = none := by decide

theorem not_back_of_atoi {s : String} {k : Int} (h : Atoi s = some k) :
    ¬ (s = "b" ∨ s = "B") := by
  rintro (hb | hb)
  · rw [hb, atoi_b] at h; cases h
  · rw [hb, atoi_B] at h; cases h

/-- C5: in the topic menu showing the list `topicList`, a token that
`strconv.Atoi` reads as an integer `k` with 1 ≤ k ≤ len(topicList) selects
`topicList[k-1]`: its title is shown, the dispatch runs for that topic (one
call, of the routine registered for it), the acknowledgement is awaited, and
the same topic menu (same list, same category title) is shown again.  The
decimal numeral of every `n` in the range of `int` is a token read as `n`. -/
theorem browse_valid_selection (reg : Registry) (topicList : List String)
    (categoryTitle text : String) (k : Int)
    (hparse : Atoi (TrimSpace text) = some k) (h1 : 1 ≤ k)
    (h2 : k ≤ (topicList.length : Int)) :
    (∃ selectedTopic : String,
      topicList[(k - 1).toNat]? = some selectedTopic ∧
      step reg (State.BrowseTopicMenu topicList categoryTitle) text
        = ([Event.clearScreen, Event.PrintColoredTitle selectedTopic ColorYellow]
             ++ runExample reg selectedTopic
             ++ [Event.PressEnterToContinue]
             ++ (topicMenu topicList categoryTitle).1,
           State.BrowseTopicMenu topicList categoryTitle) ∧
      calls (step reg (State.BrowseTopicMenu topicList categoryTitle) text).1
        = (reg.exampleFunctions.lookup selectedTopic).toList ∧
      (∀ fn, reg.exampleFunctions.lookup selectedTopic = some fn →
        calls (step reg (State.BrowseTopicMenu topicList categoryTitle) text).1 = [fn])) ∧
    (∀ n : Nat, n < 2 ^ 63 → Atoi (TrimSpace (toString n)) = some (n : Int)) := by
  have hidx : (k - 1).toNat < topicList.length := by omega
  have hsel : topicList[(k - 1).toNat]? = some (topicList[(k - 1).toNat]) :=
    List.getElem?_eq_getElem hidx
  have hnb := not_back_of_atoi hparse
  have hrange : ¬ (k < 1 ∨ k > (topicList.length : Int)) := by omega
  have hstep : step reg (State.BrowseTopicMenu topicList categoryTitle) text
      = ([Event.clearScreen, Event.PrintColoredTitle (topicList[(k - 1).toNat]) ColorYellow]
           ++ runExample reg (topicList[(k - 1).toNat])
           ++ [Event.PressEnterToContinue]
           ++ (topicMenu topicList categoryTitle).1,
         State.BrowseTopicMenu topicList categoryTitle) := by
    simp only [step, browseTopic, hnb, if_false, hparse, hrange, hsel, topicMenu]
  have hcalls : calls (step reg (State.BrowseTopicMenu topicList categoryTitle) text).1
      = (reg.exampleFunctions.lookup (topicList[(k - 1).toNat])).toList := by
    rw [hstep]
    simp [calls_append, calls_runExample, calls_topicMenu, calls_listTopics, calls]
  refine ⟨⟨topicList[(k - 1).toNat], hsel, hstep, hcalls, ?_⟩, ?_⟩
  · intro fn hfn
    rw [hcalls, hfn]
    rfl
  · intro n hn
    rw [trimSpace_toString, atoi_toString n hn]

/-- C5 at a concrete input: token `2` in the topic menu of "enums". -/
theorem browse_valid_selection_witness :
    ∃ selectedTopic : String,
      (index topics "enums")[((2 : Int) - 1).toNat]? = some selectedTopic ∧
      step shipped (State.BrowseTopicMenu (index topics "enums") "Enums") " 2"
        = ([Event.clearScreen, Event.PrintColoredTitle selectedTopic ColorYellow]
             ++ runExample shipped selectedTopic
             ++ [Event.PressEnterToContinue]
             ++ (topicMenu (index topics "enums") "Enums").1,
           State.BrowseTopicMenu (index topics "enums") "Enums") ∧
      calls (step shipped (State.BrowseTopicMenu (index topics "enums") "Enums") " 2").1
        = (shipped.exampleFunctions.lookup selectedTopic).toList ∧
      (∀ fn, shipped.exampleFunctions.lookup selectedTopic = some fn →
        calls (step shipped (State.BrowseTopicMenu (index topics "enums") "Enums") " 2").1
          = [fn]) :=
  (browse_valid_selection shipped (index topics "enums") "Enums" " 2" 2
    (by decide) (by decide) (by decide)).1

/-- C6: in a topic menu, a token other than `b`/`B` that `strconv.Atoi` rejects,
or reads as an integer below 1 or above len(topicList), is answered with
"Invalid selection. Please try again.": no routine is called and the same
topic menu is shown again. -/
theorem browse_invalid_selection (reg : Registry) (topicList : List String)
    (categoryTitle text : String)
    (hb : TrimSpace text ≠ "b" ∧ TrimSpace text ≠ "B")
    (hbad : Atoi (TrimSpace text) = none ∨
      ∃ k : Int, Atoi (TrimSpace text) = some k ∧ (k < 1 ∨ (topicList.length : Int) < k)) :
    step reg (State.BrowseTopicMenu topicList categoryTitle) text
      = ([Event.Println "Invalid selection. Please try again.", Event.PressEnterToContinue]
           ++ (topicMenu topicList categoryTitle).1,
         State.BrowseTopicMenu topicList categoryTitle) ∧
    calls (step reg (State.BrowseTopicMenu topicList categoryTitle) text).1 = [] := by
  have hnb : ¬ (TrimSpace text = "b" ∨ TrimSpace text = "B") := by
    rintro (h | h)
    · exact hb.1 h
    · exact hb.2 h
  have hstep : step reg (State.BrowseTopicMenu topicList categoryTitle) text
      = ([Event.Println "Invalid selection. Please try again.", Event.PressEnterToContinue]
           ++ (topicMenu topicList categoryTitle).1,
         State.BrowseTopicMenu topicList categoryTitle) := by
    rcases hbad with hnone | ⟨k, hk, hrange⟩
    · simp only [step, browseTopic, hnb, if_false, hnone, topicMenu]
    · have hrange2 : k < 1 ∨ k > (topicList.length : Int) := hrange
      simp only [step, browseTopic, hnb, if_false, hk, hrange2, if_true, topicMenu]
  refine ⟨hstep, ?_⟩
  rw [hstep]
  simp [calls_append, calls_topicMenu, calls_listTopics, calls]

/-- C6 at concrete inputs: the token `0` and the token `-1` in the topic menu
of "interfaces". -/
theorem browse_invalid_selection_witness :
    (step shipped (State.BrowseTopicMenu (index topics "interfaces") "Interfaces") "0").2
        = State.BrowseTopicMenu (index topics "interfaces") "Interfaces" ∧
      calls (step shipped (State.BrowseTopicMenu (index topics "interfaces") "Interfaces")
        "-1").1 = [] :=
  ⟨congrArg Prod.snd (browse_invalid_selection shipped (index topics "interfaces")
      "Interfaces" "0" (by decide) (Or.inr ⟨0, by decide, by decide⟩)).1,
   (browse_invalid_selection shipped (index topics "interfaces") "Interfaces" "-1"
      (by decide) (Or.inr ⟨-1, by decide, by decide⟩)).2⟩

/-- C7: in the browse category menu, a token other than `b`, `B`, `1` and `2`
is answered with "Invalid category. Please try again.": no routine is called,
no topic menu is entered, and the category menu is shown again. -/
theorem browse_invalid_category (reg : Registry) (text : String)
    (hb : TrimSpace text ≠ "b") (hB : TrimSpace text ≠ "B")
    (h1 : TrimSpace text ≠ "1") (h2 : TrimSpace text ≠ "2") :
    step reg State.BrowseCategoryMenu text
      = ([Event.Println "Invalid category. Please try again.", Event.PressEnterToContinue]
           ++ categoryMenu.1,
         State.BrowseCategoryMenu) ∧
    calls (step reg State.BrowseCategoryMenu text).1 = [] := by
  have hstep : step reg State.BrowseCategoryMenu text
      = ([Event.Println "Invalid category. Please try again.", Event.PressEnterToContinue]
           ++ categoryMenu.1,
         State.BrowseCategoryMenu) := by
    simp [step, browseCategory, hb, hB, h1, h2, thenMain, categoryMenu]
  refine ⟨hstep, ?_⟩
  rw [hstep]
  decide

/-- C7 at a concrete input: the token `3` in the category menu. -/
theorem browse_invalid_category_witness :
    (step shipped State.BrowseCategoryMenu "3").2 = State.BrowseCategoryMenu ∧
      calls (step shipped State.BrowseCategoryMenu "3").1 = [] :=
  ⟨congrArg Prod.snd (browse_invalid_category shipped "3"
      (by decide) (by decide) (by decide) (by decide)).1,
   (browse_invalid_category shipped "3" (by decide) (by decide) (by decide) (by decide)).2⟩

/-! ## C8: numbering of categories and topics -/

theorem listTopics_get (l : List String) :
    ∀ (i k : Nat) (t : String), l[k]? = some t →
      (listTopics i l)[k]? = some (Event.Printf "%d. %s\n" [Arg.int (i + k + 1), Arg.str t]) := by
  induction l with
  | nil => intro i k t h; simp at h
  | cons x xs ih =>
    intro i k t h
    cases k with
    | zero =>
      simp only [List.getElem?_cons_zero, Option.some.injEq] at h
      simp [listTopics, h]
    | succ j =>
      simp only [List.getElem?_cons_succ] at h
      have := ih (i + 1) j t h
      simp only [listTopics, List.getElem?_cons_succ, this]
      congr 5
      push_cast
      omega

theorem listTopics_length (l : List String) : ∀ i, (listTopics i l).length = l.length := by
  induction l with
  | nil => intro i; rfl
  | cons x xs ih => intro i; simp [listTopics, ih]

/-- C8: the category menu lists "1. Interfaces" before "2. Enums"; there the
token `1` opens the topic menu whose list is exactly `topics["interfaces"]`
and the token `2` the one whose list is exactly `topics["enums"]`; and a topic
menu prints its list in declared order, the element at position k (counted
from 1) under the number k. -/
theorem category_numbering (text : String) :
    (∃ before after : List Event, categoryMenu.1
      = before ++ [Event.Println "1. Interfaces", Event.Println "2. Enums"] ++ after) ∧
    (TrimSpace text = "1" →
      step shipped State.BrowseCategoryMenu text
        = topicMenu (index topics "interfaces") "Interfaces") ∧
    (TrimSpace text = "2" →
      step shipped State.BrowseCategoryMenu text = topicMenu (index topics "enums") "Enums") ∧
    (∀ (topicList : List String) (categoryTitle : String),
      topicMenu topicList categoryTitle
        = ([Event.clearScreen,
            Event.PrintColoredTitle (categoryTitle ++ " Examples") ColorBlue]
             ++ listTopics 0 topicList
             ++ [Event.Println "b. Back to Categories",
                 Event.Print "\nSelect an example (or 'b' to go back): "],
           State.BrowseTopicMenu topicList categoryTitle) ∧
      (listTopics 0 topicList).length = topicList.length ∧
      ∀ (k : Nat) (t : String), 1 ≤ k → topicList[k - 1]? = some t →
        (listTopics 0 topicList)[k - 1]?
          = some (Event.Printf "%d. %s\n" [Arg.int (k : Int), Arg.str t])) := by
  refine ⟨⟨[Event.clearScreen, Event.PrintColoredTitle "Browse Examples" ColorBlue,
      Event.Println "Categories:"],
      [Event.Println "b. Back to Main Menu",
       Event.Print "\nSelect a category (or 'b' to go back): "], rfl⟩, ?_, ?_, ?_⟩
  · intro h
    simp [step, browseCategory, h, thenMain, shipped]
  · intro h
    simp [step, browseCategory, h, thenMain, shipped]
  · intro topicList categoryTitle
    refine ⟨rfl, listTopics_length topicList 0, ?_⟩
    intro k t hk ht
    rw [listTopics_get topicList 0 (k - 1) t ht]
    congr 4
    omega

/-- C8 at concrete inputs: the tokens `1` and `2` in the category menu, and the
third line of the "interfaces" topic menu. -/
theorem category_numbering_witness :
    (step shipped State.BrowseCategoryMenu "1").2
        = State.BrowseTopicMenu
            ["Basic Interfaces", "Interface Implementation", "Empty Interface",
             "Type Assertion", "Interface Composition"] "Interfaces" ∧
      (step shipped State.BrowseCategoryMenu "2").2
        = State.BrowseTopicMenu
            ["Basic Enums", "Iota Enums", "String Enums", "Behavior Enums"] "Enums" ∧
      (listTopics 0 (index topics "interfaces"))[3 - 1]?
        = some (Event.Printf "%d. %s\n" [Arg.int 3, Arg.str "Empty Interface"]) :=
  ⟨congrArg Prod.snd ((category_numbering "1").2.1 (by decide)),
   congrArg Prod.snd ((category_numbering "2").2.2.1 (by decide)),
   ((category_numbering "").2.2.2 (index topics "interfaces") "Interfaces").2.2
      3 "Empty Interface" (by decide) (by decide)⟩

/-! ## C9: back unwinds one level -/

/-- C9: the token `b` or `B` typed in a topic menu leads to the browse category
menu (not to the main menu), typed in the category menu it leads to the main
menu, and neither calls a routine; so from a topic menu one back token does
not reach the main menu and two do. -/
theorem back_one_level (reg : Registry) (topicList : List String)
    (categoryTitle text text2 : String)
    (h : TrimSpace text = "b" ∨ TrimSpace text = "B")
    (h2 : TrimSpace text2 = "b" ∨ TrimSpace text2 = "B") :
    step reg (State.BrowseTopicMenu topicList categoryTitle) text = categoryMenu ∧
    categoryMenu.2 = State.BrowseCategoryMenu ∧
    calls categoryMenu.1 = [] ∧
    step reg State.BrowseCategoryMenu text = mainLoop ∧
    mainLoop.2 = State.Root ∧
    calls mainLoop.1 = [] ∧
    (run reg (State.BrowseTopicMenu topicList categoryTitle) [text]).2
      = State.BrowseCategoryMenu ∧
    (run reg (State.BrowseTopicMenu topicList categoryTitle) [text]).2 ≠ State.Root ∧
    (run reg (State.BrowseTopicMenu topicList categoryTitle) [text, text2]).2 = State.Root ∧
    calls (run reg (State.BrowseTopicMenu topicList categoryTitle) [text, text2]).1 = [] := by
  have s1 : step reg (State.BrowseTopicMenu topicList categoryTitle) text = categoryMenu := by
    simp [step, browseTopic, h]
  have s2 : ∀ x : String, (TrimSpace x = "b" ∨ TrimSpace x = "B") →
      step reg State.BrowseCategoryMenu x = mainLoop := by
    intro x hx
    simp [step, browseCategory, hx, thenMain]
  have r1 : run reg (State.BrowseTopicMenu topicList categoryTitle) [text]
      = (categoryMenu.1, State.BrowseCategoryMenu) := by
    simp [run, s1, categoryMenu]
  have r2 : run reg (State.BrowseTopicMenu topicList categoryTitle) [text, text2]
      = (categoryMenu.1 ++ mainLoop.1, State.Root) := by
    have hc : categoryMenu.2 = State.BrowseCategoryMenu := rfl
    simp [run, s1, hc, s2 text2 h2, mainLoop]
  refine ⟨s1, rfl, calls_categoryMenu, s2 text h, rfl, calls_mainLoop, ?_, ?_, ?_, ?_⟩
  · rw [r1]
  · rw [r1]; decide
  · rw [r2]
  · rw [r2, calls_append, calls_categoryMenu, calls_mainLoop]; rfl

/-- C9 at a concrete input: `b` then `B` from the topic menu of "enums". -/
theorem back_one_level_witness :
    (run shipped (State.BrowseTopicMenu (index topics "enums") "Enums") ["b"]).2
        = State.BrowseCategoryMenu ∧
      (run shipped (State.BrowseTopicMenu (index topics "enums") "Enums") ["b", "B"]).2
        = State.Root :=
  ⟨(back_one_level shipped (index topics "enums") "Enums" "b" "B"
      (by decide) (by decide)).2.2.2.2.2.2.1,
   (back_one_level shipped (index topics "enums") "Enums" "b" "B"
      (by decide) (by decide)).2.2.2.2.2.2.2.2.1⟩

/-! ## C10: invalid choice at the main menu -/

/-- C10: at the main menu a token other than `1`, `2`, `3`, `q` and `Q` is
answered with "Invalid choice. Please try again.": no routine is called,
neither mode is entered, and after the acknowledgement the main menu is shown
again with the program blocked at the main menu. -/
theorem invalid_root_choice (reg : Registry) (text : String)
    (h1 : TrimSpace text ≠ "1") (h2 : TrimSpace text ≠ "2") (h3 : TrimSpace text ≠ "3")
    (hq : TrimSpace text ≠ "q") (hQ : TrimSpace text ≠ "Q") :
    step reg State.Root text
      = ([Event.Println "Invalid choice. Please try again.", Event.PressEnterToContinue,
          Event.clearScreen,
          Event.PrintColoredTitle "Main Menu" "\x1b[32m",
          Event.Println "1. Start Tutorial (guided journey)",
          Event.Println "2. Browse Examples (pick specific topics)",
          Event.Println "3. Help",
          Event.Println "q. Quit",
          Event.Print "\nEnter your choice (or 'q' to quit): "],
         State.Root) ∧
    calls (step reg State.Root text).1 = [] := by
  have hstep : step reg State.Root text
      = ([Event.Println "Invalid choice. Please try again.", Event.PressEnterToContinue]
           ++ displayMainMenu ++ [Event.Print "\nEnter your choice (or 'q' to quit): "],
         State.Root) := by
    simp [step, h1, h2, h3, hq, hQ, mainLoop]
  refine ⟨hstep, ?_⟩
  rw [hstep]
  decide

/-- C10 at concrete inputs: the empty token and the back token `b`. -/
theorem invalid_root_choice_witness :
    (step shipped State.Root "").2 = State.Root ∧
      calls (step shipped State.Root "").1 = [] ∧
      (step shipped State.Root "b").2 = State.Root ∧
      calls (step shipped State.Root "b").1 = [] :=
  ⟨congrArg Prod.snd (invalid_root_choice shipped ""
      (by decide) (by decide) (by decide) (by decide) (by decide)).1,
   (invalid_root_choice shipped ""
      (by decide) (by decide) (by decide) (by decide) (by decide)).2,
   congrArg Prod.snd (invalid_root_choice shipped "b"
      (by decide) (by decide) (by decide) (by decide) (by decide)).1,
   (invalid_root_choice shipped "b"
      (by decide) (by decide) (by decide) (by decide) (by decide)).2⟩

/-! ## C11: the session ends only by quitting at the main menu -/

theorem thenMain_ne_terminated {r : List Event × Option State}
    (h : ∀ s, r.2 = some s → s ≠ State.Terminated) : (thenMain r).2 ≠ State.Terminated := by
  unfold thenMain
  cases hr : r.2 with
  | none => simp [mainLoop]
  | some s => exact h s hr

theorem tutorialLoop_ne_terminated (reg : Registry) (n i : Nat) (rest : List String) :
    ∀ s, (tutorialLoop reg n i rest).2 = some s → s ≠ State.Terminated := by
  intro s hs
  obtain ⟨j, rfl⟩ := tutorialLoop_state reg n rest i s hs
  simp

theorem atoi_q : Atoi "q" = none := by decide

theorem atoi_Q : Atoi "Q" = none := by decide

theorem step_ne_terminated (reg : Registry) (s : State) (text : String)
    (hroot : s ≠ State.Root) (hterm : s ≠ State.Terminated) :
    (step reg s text).2 ≠ State.Terminated := by
  cases s with
  | Root => exact absurd rfl hroot
  | TutorialAt i =>
    simp only [step, tutorialResume]
    apply thenMain_ne_terminated
    split_ifs
    · intro s hs; simp at hs
    · exact tutorialLoop_ne_terminated reg _ _ _
  | BrowseCategoryMenu =>
    simp only [step, browseCategory]
    apply thenMain_ne_terminated
    split_ifs <;> intro s hs <;> simp [topicMenu, categoryMenu] at hs <;> rw [← hs] <;> simp
  | BrowseTopicMenu topicList categoryTitle =>
    simp only [step, browseTopic]
    split_ifs
    · simp [categoryMenu]
    · cases Atoi (TrimSpace text) with
      | none => simp [topicMenu]
      | some topicIndex =>
        simp only
        split_ifs
        · simp [topicMenu]
        · cases topicList[(topicIndex - 1).toNat]? <;> simp [topicMenu]
  | Terminated => exact absurd rfl hterm
  | Panicked => simp [step]

theorem step_root_terminated_iff (reg : Registry) (text : String) :
    (step reg State.Root text).2 = State.Terminated ↔ isQuitToken text := by
  constructor
  · intro h
    by_contra hq
    have hq2 : ¬ (TrimSpace text = "q" ∨ TrimSpace text = "Q") := hq
    simp only [step, hq2, if_false] at h
    revert h
    split_ifs
    · exact thenMain_ne_terminated (tutorialLoop_ne_terminated reg _ _ _)
    · simp [thenMain, browseExamples, categoryMenu]
    · simp [mainLoop]
    · simp [mainLoop]
  · intro h
    have h2 : TrimSpace text = "q" ∨ TrimSpace text = "Q" := h
    simp [step, h2]

theorem run_terminated (reg : Registry) (input : List String) :
    run reg State.Terminated input = ([], State.Terminated) := by
  induction input with
  | nil => rfl
  | cons text rest ih => simp [run, step, ih]

theorem run_terminated_cause (reg : Registry) (input : List String) :
    ∀ s, s ≠ State.Terminated → (run reg s input).2 = State.Terminated →
      ∃ (before : List String) (text : String) (after : List String),
        input = before ++ text :: after ∧ (run reg s before).2 = State.Root ∧
        isQuitToken text := by
  induction input with
  | nil => intro s hs h; exact absurd h hs
  | cons x rest ih =>
    intro s hs h
    by_cases hnext : (step reg s x).2 = State.Terminated
    · have hroot : s = State.Root := by
        by_contra hne
        exact step_ne_terminated reg s x hne hs hnext
      subst hroot
      exact ⟨[], x, rest, rfl, rfl, (step_root_terminated_iff reg x).mp hnext⟩
    · have h2 : (run reg (step reg s x).2 rest).2 = State.Terminated := h
      obtain ⟨before, text, after, h3, h4, h5⟩ := ih _ hnext h2
      refine ⟨x :: before, text, after, by rw [h3]; rfl, ?_, h5⟩
      simpa [run] using h4

theorem not_menu_of_quit {text : String} (h : isQuitToken text) :
    ¬ (TrimSpace text = "m" ∨ TrimSpace text = "M") := by
  rcases h with h | h <;> rw [h] <;> decide

theorem tutorial_next (reg : Registry) (i : Nat) (t text : String)
    (hm : ¬ (TrimSpace text = "m" ∨ TrimSpace text = "M"))
    (ht : (allTopics reg)[i + 1]? = some t) :
    ∃ more : List Event,
      (step reg (State.TutorialAt i) text).1
        = tutorialShow reg (allTopics reg).length (i + 1) t ++ more ∧
      (step reg (State.TutorialAt i) text).2
        = if i + 1 < (allTopics reg).length - 1 then State.TutorialAt (i + 1)
          else State.Root := by
  obtain ⟨hlt, hget⟩ := List.getElem?_eq_some.mp ht
  have hdrop : (allTopics reg).drop (i + 1) = t :: (allTopics reg).drop (i + 1 + 1) := by
    rw [List.drop_eq_getElem_cons hlt, hget]
  simp only [step, tutorialResume, hm, if_false, hdrop]
  by_cases hi : i + 1 < (allTopics reg).length - 1
  · refine ⟨tutorialOptions, ?_, ?_⟩ <;> simp [tutorialLoop, hi, thenMain]
  · have hnil : (allTopics reg).drop (i + 1 + 1) = [] :=
      List.drop_eq_nil_of_le (by omega)
    refine ⟨[completion, Event.PressEnterToContinue] ++ mainLoop.1, ?_, ?_⟩ <;>
      simp [tutorialLoop, hi, hnil, thenMain, mainLoop]

/-- C11: the loop of `main` ends exactly when the token read at the main menu
is `q` or `Q`: from no other state does a token end the session, and once it
has ended no call is made any more.  A `q`/`Q` read in the tutorial shows the
next topic; read in the browse category menu it is an invalid category, read
in a topic menu an invalid selection, the menu being shown again. -/
theorem quit_only_from_root (reg : Registry) :
    (∀ text, (step reg State.Root text).2 = State.Terminated ↔ isQuitToken text) ∧
    (∀ text, isQuitToken text →
      step reg State.Root text
        = ([Event.Println "Thank you for learning Go interfaces and enums. Happy coding!"],
           State.Terminated)) ∧
    (∀ s text, s ≠ State.Root → s ≠ State.Terminated →
      (step reg s text).2 ≠ State.Terminated) ∧
    (∀ input, run reg State.Terminated input = ([], State.Terminated)) ∧
    (∀ input, (run reg State.Root input).2 = State.Terminated →
      ∃ (before : List String) (text : String) (after : List String),
        input = before ++ text :: after ∧ (run reg State.Root before).2 = State.Root ∧
        isQuitToken text) ∧
    (∀ text, isQuitToken text → ∀ (i : Nat) (t : String), (allTopics reg)[i + 1]? = some t →
      ∃ more : List Event,
        (step reg (State.TutorialAt i) text).1
          = tutorialShow reg (allTopics reg).length (i + 1) t ++ more ∧
        (step reg (State.TutorialAt i) text).2
          = if i + 1 < (allTopics reg).length - 1 then State.TutorialAt (i + 1)
            else State.Root) ∧
    (∀ text, isQuitToken text →
      step reg State.BrowseCategoryMenu text
        = ([Event.Println "Invalid category. Please try again.", Event.PressEnterToContinue]
             ++ categoryMenu.1,
           State.BrowseCategoryMenu)) ∧
    (∀ text, isQuitToken text → ∀ (topicList : List String) (categoryTitle : String),
      step reg (State.BrowseTopicMenu topicList categoryTitle) text
        = ([Event.Println "Invalid selection. Please try again.", Event.PressEnterToContinue]
             ++ (topicMenu topicList categoryTitle).1,
           State.BrowseTopicMenu topicList categoryTitle)) := by
  refine ⟨step_root_terminated_iff reg, ?_, step_ne_terminated reg, run_terminated reg,
    ?_, ?_, ?_, ?_⟩
  · intro text h
    have h2 : TrimSpace text = "q" ∨ TrimSpace text = "Q" := h
    simp [step, h2]
  · intro input h
    exact run_terminated_cause reg input State.Root (by simp) h
  · intro text h i t ht
    exact tutorial_next reg i t text (not_menu_of_quit h) ht
  · intro text h
    rcases h with h | h <;> simp [step, browseCategory, h, thenMain, categoryMenu]
  · intro text h topicList categoryTitle
    rcases h with h | h
    · simp [step, browseTopic, h, atoi_q, topicMenu]
    · simp [step, browseTopic, h, atoi_Q, topicMenu]

/-- C11 at concrete inputs: `Q` typed in the tutorial, in the category menu and
in a topic menu does not end the session, `q` typed at the main menu does. -/
theorem quit_only_from_root_witness :
    (run shipped State.Root ["1", "Q"]).2 = State.TutorialAt 1 ∧
      (run shipped State.Root ["2", "Q"]).2 = State.BrowseCategoryMenu ∧
      (run shipped State.Root ["2", "1", "Q"]).2
        = State.BrowseTopicMenu (index topics "interfaces") "Interfaces" ∧
      ((step shipped State.Root " q").2 = State.Terminated ↔ isQuitToken " q") ∧
      (step shipped (State.TutorialAt 3) "q").2 ≠ State.Terminated :=
  ⟨by decide, by decide, by decide, (quit_only_from_root shipped).1 " q",
   (quit_only_from_root shipped).2.2.1 (State.TutorialAt 3) "q" (by decide) (by decide)⟩

/-! ## C12: dispatch at the main menu -/

/-- C12: at the main menu the token `1` calls `tutorialMode`, which starts at
index 0: it shows "Tutorial (1/9): Basic Interfaces", calls the routine of the
first topic of "interfaces", prints the navigation options and blocks in the
tutorial at topic 0; the token `2` shows the browse category menu, blocks
there and calls no routine; the token `3` clears the screen, shows the help
text (title "Help" and fifteen lines), waits for the acknowledgement, calls no
routine and shows the main menu again. -/
theorem root_dispatch (text : String) :
    (TrimSpace text = "1" →
      step shipped State.Root text
        = ([Event.clearScreen,
            Event.PrintColoredTitle "Tutorial (1/9): Basic Interfaces" "\x1b[33m",
            Event.call Routine.BasicInterfaces,
            Event.Println "\nOptions:",
            Event.Println "n - Next example",
            Event.Println "m - Return to main menu",
            Event.Print "\nYour choice: "],
           State.TutorialAt 0) ∧
      (index topics "interfaces")[0]? = some "Basic Interfaces" ∧
      exampleFunctions.lookup "Basic Interfaces" = some Routine.BasicInterfaces ∧
      (calls (step shipped State.Root text).1)[0]? = some Routine.BasicInterfaces) ∧
    (TrimSpace text = "2" →
      step shipped State.Root text
        = ([Event.clearScreen,
            Event.PrintColoredTitle "Browse Examples" "\x1b[34m",
            Event.Println "Categories:",
            Event.Println "1. Interfaces",
            Event.Println "2. Enums",
            Event.Println "b. Back to Main Menu",
            Event.Print "\nSelect a category (or 'b' to go back): "],
           State.BrowseCategoryMenu) ∧
      calls (step shipped State.Root text).1 = []) ∧
    (TrimSpace text = "3" →
      step shipped State.Root text
        = ([Event.clearScreen,
            Event.PrintColoredTitle "Help" "\x1b[35m",
            Event.Println "How to use this tool:",
            Event.Println
              "1. Tutorial Mode: Guides you through all examples in a logical order.",
            Event.Println "2. Browse Examples: Pick specific topics you're interested in.",
            Event.Println "\nAbout Go Interfaces:",
            Event.Println "- Interfaces in Go define behavior, not structure.",
            Event.Println
              "- Types implement interfaces implicitly (no 'implements' keyword).",
            Event.Println "- Interfaces can be composed of other interfaces.",
            Event.Println
              "- The empty interface (interface\x7b\x7d) can hold values of any type.",
            Event.Println "\nAbout Go Enums:",
            Event.Println
              "- Go doesn't have built-in enums, but provides patterns to implement them.",
            Event.Println "- The iota identifier is used to create incrementing constants.",
            Event.Println "- Type safety can be achieved with custom types and constants.",
            Event.Println "- String representations can be added with methods.",
            Event.Println
              "\nTip: Running the examples and reviewing the code is the best way to learn!",
            Event.PressEnterToContinue,
            Event.clearScreen,
            Event.PrintColoredTitle "Main Menu" "\x1b[32m",
            Event.Println "1. Start Tutorial (guided journey)",
            Event.Println "2. Browse Examples (pick specific topics)",
            Event.Println "3. Help",
            Event.Println "q. Quit",
            Event.Print "\nEnter your choice (or 'q' to quit): "],
           State.Root) ∧
      calls (step shipped State.Root text).1 = []) := by
  refine ⟨?_, ?_, ?_⟩
  · intro h
    have hstep : step shipped State.Root text = step shipped State.Root "1" := by
      simp only [step, h]; rfl
    rw [hstep]
    decide
  · intro h
    have hstep : step shipped State.Root text = step shipped State.Root "2" := by
      simp only [step, h]; rfl
    rw [hstep]
    decide
  · intro h
    have hstep : step shipped State.Root text = step shipped State.Root "3" := by
      simp only [step, h]; rfl
    rw [hstep]
    decide

/-- C12 at concrete inputs: the lines `1`, ` 2` and `3 `. -/
theorem root_dispatch_witness :
    (step shipped State.Root "1").2 = State.TutorialAt 0 ∧
      (step shipped State.Root " 2").2 = State.BrowseCategoryMenu ∧
      (step shipped State.Root "3 ").2 = State.Root :=
  ⟨congrArg Prod.snd ((root_dispatch "1").1 (by decide)).1,
   congrArg Prod.snd ((root_dispatch " 2").2.1 (by decide)).1,
   congrArg Prod.snd ((root_dispatch "3 ").2.2 (by decide)).1⟩

/-! ## C13: a browse session end to end -/

/-- C13: from the main menu the tokens `2`, `2`, `1`, `9`, `b` lead through the
category menu into the topic menu of "enums", call exactly one routine, the
one of the first topic of "enums", then report exactly one invalid selection
while staying in the topic menu of "enums", and end in the browse category
menu. -/
theorem browse_scenario :
    (run shipped State.Root ["2"]).2 = State.BrowseCategoryMenu ∧
    (run shipped State.Root ["2", "2"]).2
      = State.BrowseTopicMenu (index topics "enums") "Enums" ∧
    (run shipped State.Root ["2", "2", "1"]).2
      = State.BrowseTopicMenu (index topics "enums") "Enums" ∧
    (run shipped State.Root ["2", "2", "1", "9"]).2
      = State.BrowseTopicMenu (index topics "enums") "Enums" ∧
    (run shipped State.Root ["2", "2", "1", "9", "b"]).2 = State.BrowseCategoryMenu ∧
    (index topics "enums")[0]? = some "Basic Enums" ∧
    exampleFunctions.lookup "Basic Enums" = some Routine.BasicEnums ∧
    calls (run shipped State.Root ["2", "2"]).1 = [] ∧
    calls (run shipped State.Root ["2", "2", "1"]).1 = [Routine.BasicEnums] ∧
    calls (run shipped State.Root ["2", "2", "1", "9", "b"]).1 = [Routine.BasicEnums] ∧
    (run shipped State.Root ["2", "2", "1"]).1.count
      (Event.Println "Invalid selection. Please try again.") = 0 ∧
    (run shipped State.Root ["2", "2", "1", "9"]).1.count
      (Event.Println "Invalid selection. Please try again.") = 1 ∧
    (run shipped State.Root ["2", "2", "1", "9", "b"]).1.count
      (Event.Println "Invalid selection. Please try again.") = 1 := by
  decide

/-! ## C16: topic names are unique -/

/-- C16: no topic name occurs twice in `topics["interfaces"]` or in
`topics["enums"]`, none occurs in both lists, and so the tutorial sequence of
9 topics has no repeated element. -/
theorem topics_unique :
    (index topics "interfaces").Nodup ∧
    (index topics "enums").Nodup ∧
    (∀ t ∈ index topics "interfaces", t ∉ index topics "enums") ∧
    (allTopics shipped).Nodup ∧
    (allTopics shipped).length = 9 := by
  decide

/-- C16 at a concrete topic: "Type Assertion" is a topic of "interfaces" and
not one of "enums". -/
theorem topics_unique_witness :
    "Type Assertion" ∈ index topics "interfaces" ∧
      "Type Assertion" ∉ index topics "enums" :=
  ⟨by decide, topics_unique.2.2.1 "Type Assertion" (by decide)⟩

/-! ## C15: the slice access never panics -/

theorem thenMain_ne_panicked {r : List Event × Option State}
    (h : ∀ s, r.2 = some s → s ≠ State.Panicked) : (thenMain r).2 ≠ State.Panicked := by
  unfold thenMain
  cases hr : r.2 with
  | none => simp [mainLoop]
  | some s => exact h s hr

theorem tutorialLoop_ne_panicked (reg : Registry) (n i : Nat) (rest : List String) :
    ∀ s, (tutorialLoop reg n i rest).2 = some s → s ≠ State.Panicked := by
  intro s hs
  obtain ⟨j, rfl⟩ := tutorialLoop_state reg n rest i s hs
  simp

theorem index_in_range (topicList : List String) (topicIndex : Int)
    (h : ¬ (topicIndex < 1 ∨ topicIndex > (topicList.length : Int))) :
    1 ≤ topicIndex ∧ topicIndex ≤ (topicList.length : Int) ∧
      ∃ selectedTopic, topicList[(topicIndex - 1).toNat]? = some selectedTopic := by
  have hidx : (topicIndex - 1).toNat < topicList.length := by omega
  exact ⟨by omega, by omega, topicList[(topicIndex - 1).toNat],
    List.getElem?_eq_getElem hidx⟩

theorem step_ne_panicked (reg : Registry) (s : State) (text : String)
    (hs : s ≠ State.Panicked) : (step reg s text).2 ≠ State.Panicked := by
  cases s with
  | Root =>
    simp only [step]
    split_ifs
    · simp
    · exact thenMain_ne_panicked (tutorialLoop_ne_panicked reg _ _ _)
    · simp [thenMain, browseExamples, categoryMenu]
    · simp [mainLoop]
    · simp [mainLoop]
  | TutorialAt i =>
    simp only [step, tutorialResume]
    apply thenMain_ne_panicked
    split_ifs
    · intro s hs; simp at hs
    · exact tutorialLoop_ne_panicked reg _ _ _
  | BrowseCategoryMenu =>
    simp only [step, browseCategory]
    apply thenMain_ne_panicked
    split_ifs <;> intro s hs <;> simp [topicMenu, categoryMenu] at hs <;> rw [← hs] <;> simp
  | BrowseTopicMenu topicList categoryTitle =>
    simp only [step, browseTopic]
    split_ifs
    · simp [categoryMenu]
    · cases Atoi (TrimSpace text) with
      | none => simp [topicMenu]
      | some topicIndex =>
        simp only
        split_ifs with hrange
        · simp [topicMenu]
        · obtain ⟨_, _, selectedTopic, hsel⟩ := index_in_range topicList topicIndex hrange
          rw [hsel]
          simp [topicMenu]
  | Terminated => simp [step]
  | Panicked => exact absurd rfl hs

theorem run_ne_panicked (reg : Registry) (input : List String) :
    ∀ s, s ≠ State.Panicked → (run reg s input).2 ≠ State.Panicked := by
  induction input with
  | nil => intro s hs; exact hs
  | cons text rest ih =>
    intro s hs
    exact ih _ (step_ne_panicked reg s text hs)

/-- C15: the condition of main.go line 190 lets the slice access
`topicList[topicIndex-1]` be reached only with 1 ≤ topicIndex ≤ len(topicList),
where the index is in range; so no step of the controller panics, and whatever
lines are typed, with whatever registry, the program never panics. -/
theorem never_panics (reg : Registry) :
    (∀ (topicList : List String) (topicIndex : Int),
      ¬ (topicIndex < 1 ∨ topicIndex > (topicList.length : Int)) →
      1 ≤ topicIndex ∧ topicIndex ≤ (topicList.length : Int) ∧
        ∃ selectedTopic, topicList[(topicIndex - 1).toNat]? = some selectedTopic) ∧
    (∀ (topicList : List String) (categoryTitle text : String),
      (browseTopic reg topicList categoryTitle text).2 ≠ State.Panicked) ∧
    (∀ (s : State) (text : String), s ≠ State.Panicked →
      (step reg s text).2 ≠ State.Panicked) ∧
    (∀ (s : State) (input : List String), s ≠ State.Panicked →
      (run reg s input).2 ≠ State.Panicked) ∧
    (∀ input : List String, (run reg start.2 input).2 ≠ State.Panicked) := by
  refine ⟨index_in_range, ?_, step_ne_panicked reg, ?_, ?_⟩
  · intro topicList categoryTitle text
    exact step_ne_panicked reg (State.BrowseTopicMenu topicList categoryTitle) text (by simp)
  · intro s input hs
    exact run_ne_panicked reg input s hs
  · intro input
    exact run_ne_panicked reg input start.2 (by decide)

/-- C15 at a concrete session: in the topic menu of "interfaces" the tokens
`0`, `6`, `-3`, a numeral beyond the range of `int`, and `5`. -/
theorem never_panics_witness :
    (run shipped State.Root ["2", "1", "0", "6", "-3", "99999999999999999999", "5"]).2
        ≠ State.Panicked ∧
      (run shipped State.Root ["2", "1", "0", "6", "-3", "99999999999999999999", "5"]).2
        = State.BrowseTopicMenu (index topics "interfaces") "Interfaces" :=
  ⟨(never_panics shipped).2.2.2.1 State.Root
      ["2", "1", "0", "6", "-3", "99999999999999999999", "5"] (by decide),
   by decide⟩

/-! ## C17: no navigation state survives a mode -/

theorem run_snoc (reg : Registry) (s : State) (history : List String) (text : String) :
    run reg s (history ++ [text])
      = ((run reg s history).1 ++ (step reg (run reg s history).2 text).1,
         (step reg (run reg s history).2 text).2) := by
  rw [run_append, resume_single]

theorem tutorial_left (reg : Registry) (before : List String) (text : String)
    (hk : before.length + 1 < (allTopics reg).length)
    (hm : ∀ x ∈ before, ¬ isMenuToken x) (ht : isMenuToken text) :
    (run reg State.Root ("1" :: (before ++ [text]))).2 = State.Root := by
  obtain ⟨h1, _, _⟩ := tutorial_midway reg before 0 (allTopics reg) (List.drop_zero _) hk hm
  rw [run_root_one reg "1" (before ++ [text]) (by decide), ← resume_resume, resume_single,
    h1, step_tutorial_menu reg _ text ht]
  rfl

theorem tutorial_completed (reg : Registry) (input : List String)
    (hlen : input.length + 1 = (allTopics reg).length)
    (hm : ∀ x ∈ input, ¬ isMenuToken x) :
    (run reg State.Root ("1" :: input)).2 = State.Root := by
  obtain ⟨_, _, h2, _, _⟩ :=
    tutorial_full reg input 0 (allTopics reg) (List.drop_zero _) hlen hm
  rw [run_root_one reg "1" input (by decide)]
  exact h2

theorem step_root_one_shipped :
    step shipped State.Root "1"
      = ([Event.clearScreen,
          Event.PrintColoredTitle "Tutorial (1/9): Basic Interfaces" ColorYellow,
          Event.call Routine.BasicInterfaces] ++ tutorialOptions,
         State.TutorialAt 0) := by
  decide

theorem step_root_two (reg : Registry) : step reg State.Root "2" = categoryMenu := by
  have h : TrimSpace "2" = "2" := by decide
  simp only [step, h]
  rfl

/-- C17: whatever happened before, once the program is back at the main menu
the token `1` starts the tutorial at index 0 (title "Tutorial (1/9): ...",
routine of the first topic) and the token `2` starts browse mode at the
category menu; in particular after the tutorial was left with `m`/`M` at any
topic, after it was completed, and after browse mode was left from a topic
menu of any category. -/
theorem state_not_persistent :
    (∀ history : List String, (run shipped State.Root history).2 = State.Root →
      run shipped State.Root (history ++ ["1"])
        = ((run shipped State.Root history).1 ++
            ([Event.clearScreen,
              Event.PrintColoredTitle "Tutorial (1/9): Basic Interfaces" ColorYellow,
              Event.call Routine.BasicInterfaces] ++ tutorialOptions),
           State.TutorialAt 0) ∧
      run shipped State.Root (history ++ ["2"])
        = ((run shipped State.Root history).1 ++ categoryMenu.1,
           State.BrowseCategoryMenu)) ∧
    (∀ (before : List String) (text : String),
      before.length + 1 < (allTopics shipped).length →
      (∀ x ∈ before, ¬ isMenuToken x) → isMenuToken text →
      (run shipped State.Root ("1" :: (before ++ [text]))).2 = State.Root ∧
      (run shipped State.Root (("1" :: (before ++ [text])) ++ ["1"])).2
        = State.TutorialAt 0) ∧
    (∀ input : List String, input.length + 1 = (allTopics shipped).length →
      (∀ x ∈ input, ¬ isMenuToken x) →
      (run shipped State.Root ("1" :: input)).2 = State.Root ∧
      (run shipped State.Root (("1" :: input) ++ ["1"])).2 = State.TutorialAt 0) ∧
    (∀ (history : List String) (topicList : List String) (categoryTitle b1 b2 : String),
      (run shipped State.Root history).2 = State.BrowseTopicMenu topicList categoryTitle →
      (TrimSpace b1 = "b" ∨ TrimSpace b1 = "B") → (TrimSpace b2 = "b" ∨ TrimSpace b2 = "B") →
      (run shipped State.Root ((history ++ [b1]) ++ [b2])).2 = State.Root ∧
      (run shipped State.Root (((history ++ [b1]) ++ [b2]) ++ ["2"])).2
        = State.BrowseCategoryMenu) := by
  have hre : ∀ history : List String, (run shipped State.Root history).2 = State.Root →
      run shipped State.Root (history ++ ["1"])
        = ((run shipped State.Root history).1 ++
            ([Event.clearScreen,
              Event.PrintColoredTitle "Tutorial (1/9): Basic Interfaces" ColorYellow,
              Event.call Routine.BasicInterfaces] ++ tutorialOptions),
           State.TutorialAt 0) ∧
      run shipped State.Root (history ++ ["2"])
        = ((run shipped State.Root history).1 ++ categoryMenu.1,
           State.BrowseCategoryMenu) := by
    intro history h
    constructor
    · rw [run_snoc, h, step_root_one_shipped]
    · rw [run_snoc, h, step_root_two]
      rfl
  refine ⟨hre, ?_, ?_, ?_⟩
  · intro before text hk hm ht
    have hroot := tutorial_left shipped before text hk hm ht
    exact ⟨hroot, by rw [(hre _ hroot).1]⟩
  · intro input hlen hm
    have hroot := tutorial_completed shipped input hlen hm
    exact ⟨hroot, by rw [(hre _ hroot).1]⟩
  · intro history topicList categoryTitle b1 b2 h hb1 hb2
    have h1 : (run shipped State.Root (history ++ [b1])).2 = State.BrowseCategoryMenu := by
      rw [run_snoc, h]
      simp [step, browseTopic, hb1, categoryMenu]
    have h2 : (run shipped State.Root ((history ++ [b1]) ++ [b2])).2 = State.Root := by
      rw [run_snoc, h1]
      simp [step, browseCategory, hb2, thenMain, mainLoop]
    exact ⟨h2, by rw [(hre _ h2).2]⟩

/-- C17 at concrete sessions: the tutorial left at the third topic and entered
again; browse mode left from the topic menu of "enums" and entered again. -/
theorem state_not_persistent_witness :
    (run shipped State.Root ["1", "n", "n", "m", "1"]).2 = State.TutorialAt 0 ∧
      (run shipped State.Root ["2", "2", "3", "b", "b", "2"]).2 = State.BrowseCategoryMenu :=
  ⟨(state_not_persistent.2.1 ["n", "n"] "m" (by decide) (by decide) (by decide)).2,
   (state_not_persistent.2.2.2 ["2", "2", "3"] (index topics "enums") "Enums" "b" "b"
      (by decide) (by decide) (by decide)).2⟩

/-! ## C14: a topic without a routine -/

theorem navigation_append (a b : List Event) :
    navigation (a ++ b) = navigation a ++ navigation b := by
  simp [navigation]

theorem navigation_runExample (reg : Registry) (t : String) :
    navigation (runExample reg t) = [] := by
  unfold runExample
  cases reg.exampleFunctions.lookup t <;> rfl

theorem navigation_tutorialShow (reg reg2 : Registry) (n i : Nat) (t : String) :
    navigation (tutorialShow reg n i t) = navigation (tutorialShow reg2 n i t) := by
  unfold tutorialShow
  rw [navigation_append, navigation_append, navigation_runExample, navigation_runExample]

theorem tutorialLoop_same (reg reg2 : Registry) (n : Nat) (rest : List String) :
    ∀ i, navigation (tutorialLoop reg n i rest).1 = navigation (tutorialLoop reg2 n i rest).1 ∧
      (tutorialLoop reg n i rest).2 = (tutorialLoop reg2 n i rest).2 := by
  induction rest with
  | nil => intro i; exact ⟨rfl, rfl⟩
  | cons t ts ih =>
    intro i
    have hshow := navigation_tutorialShow reg reg2 n i t
    unfold tutorialLoop
    by_cases hi : i < n - 1
    · simp only [hi, if_true, navigation_append, hshow, and_self]
    · simp only [hi, if_false, navigation_append, hshow, (ih (i + 1)).1, (ih (i + 1)).2,
        and_self]

theorem thenMain_same {r r2 : List Event × Option State}
    (h : navigation r.1 = navigation r2.1 ∧ r.2 = r2.2) :
    navigation (thenMain r).1 = navigation (thenMain r2).1 ∧
      (thenMain r).2 = (thenMain r2).2 := by
  unfold thenMain
  rw [← h.2]
  cases r.2 with
  | none => simp only [navigation_append, h.1, and_self]
  | some s => exact ⟨h.1, rfl⟩

theorem step_same (reg reg2 : Registry) (h : reg2.topics = reg.topics) (s : State)
    (text : String) :
    navigation (step reg s text).1 = navigation (step reg2 s text).1 ∧
      (step reg s text).2 = (step reg2 s text).2 := by
  have hall : allTopics reg2 = allTopics reg := by unfold allTopics; rw [h]
  cases s with
  | Root =>
    simp only [step]
    split_ifs
    · exact ⟨rfl, rfl⟩
    · apply thenMain_same
      unfold tutorialMode
      rw [hall]
      exact tutorialLoop_same reg reg2 _ _ 0
    · exact ⟨rfl, rfl⟩
    · exact ⟨rfl, rfl⟩
    · exact ⟨rfl, rfl⟩
  | TutorialAt i =>
    simp only [step, tutorialResume]
    apply thenMain_same
    rw [hall]
    split_ifs
    · exact ⟨rfl, rfl⟩
    · exact tutorialLoop_same reg reg2 _ _ _
  | BrowseCategoryMenu =>
    simp only [step, browseCategory, h, and_self]
  | BrowseTopicMenu topicList categoryTitle =>
    simp only [step, browseTopic]
    split_ifs
    · exact ⟨rfl, rfl⟩
    · cases Atoi (TrimSpace text) with
      | none => exact ⟨rfl, rfl⟩
      | some topicIndex =>
        simp only
        split_ifs
        · exact ⟨rfl, rfl⟩
        · cases topicList[(topicIndex - 1).toNat]? with
          | none => exact ⟨rfl, rfl⟩
          | some selectedTopic =>
            simp only [navigation_append, navigation_runExample, and_self]
  | Terminated => exact ⟨rfl, rfl⟩
  | Panicked => exact ⟨rfl, rfl⟩

theorem run_same (reg reg2 : Registry) (h : reg2.topics = reg.topics) (input : List String) :
    ∀ s, navigation (run reg s input).1 = navigation (run reg2 s input).1 ∧
      (run reg s input).2 = (run reg2 s input).2 := by
  induction input with
  | nil => intro s; exact ⟨rfl, rfl⟩
  | cons text rest ih =>
    intro s
    have hstep := step_same reg reg2 h s text
    simp only [run, navigation_append, hstep.1]
    rw [hstep.2]
    simp only [(ih _).1, (ih _).2, and_self]

/-- C14: when a topic `t` has no entry in `exampleFunctions`, the dispatch
prints the placeholder "Example for t is not implemented yet." and calls no
routine, in the tutorial (on reaching `t` in any iteration) and in browse mode
(on selecting `t`); and on every sequence of lines the program goes through
exactly the states, and shows exactly the menus, titles and messages, that it
goes through with any registry of the same topics, one with a routine for `t`
included. -/
theorem unknown_topic_recoverable (reg : Registry) (t : String)
    (h : reg.exampleFunctions.lookup t = none) :
    runExample reg t
      = [Event.Printf "Example for %s is not implemented yet.\n" [Arg.str t]] ∧
    calls (runExample reg t) = [] ∧
    (∀ (n i : Nat) (rest : List String),
      tutorialLoop reg n i (t :: rest)
        = if i < n - 1 then
            ([Event.clearScreen, Event.PrintColoredTitle (tutorialTitle i n t) ColorYellow,
              Event.Printf "Example for %s is not implemented yet.\n" [Arg.str t]]
               ++ tutorialOptions,
             some (State.TutorialAt i))
          else
            ([Event.clearScreen, Event.PrintColoredTitle (tutorialTitle i n t) ColorYellow,
              Event.Printf "Example for %s is not implemented yet.\n" [Arg.str t]]
               ++ [completion, Event.PressEnterToContinue]
               ++ (tutorialLoop reg n (i + 1) rest).1,
             (tutorialLoop reg n (i + 1) rest).2)) ∧
    (∀ (topicList : List String) (categoryTitle text : String) (k : Int),
      Atoi (TrimSpace text) = some k → 1 ≤ k → k ≤ (topicList.length : Int) →
      topicList[(k - 1).toNat]? = some t →
      step reg (State.BrowseTopicMenu topicList categoryTitle) text
        = ([Event.clearScreen, Event.PrintColoredTitle t ColorYellow,
            Event.Printf "Example for %s is not implemented yet.\n" [Arg.str t],
            Event.PressEnterToContinue] ++ (topicMenu topicList categoryTitle).1,
           State.BrowseTopicMenu topicList categoryTitle)) ∧
    (∀ reg2 : Registry, reg2.topics = reg.topics → ∀ (s : State) (input : List String),
      (run reg s input).2 = (run reg2 s input).2 ∧
      navigation (run reg s input).1 = navigation (run reg2 s input).1) := by
  have hrun : runExample reg t
      = [Event.Printf "Example for %s is not implemented yet.\n" [Arg.str t]] := by
    unfold runExample; rw [h]
  refine ⟨hrun, ?_, ?_, ?_, ?_⟩
  · rw [hrun]; rfl
  · intro n i rest
    by_cases hi : i < n - 1
    · simp [tutorialLoop, hi, tutorialShow, hrun]
    · simp [tutorialLoop, hi, tutorialShow, hrun]
  · intro topicList categoryTitle text k hparse h1 h2 hsel
    have hnb := not_back_of_atoi hparse
    have hrange : ¬ (k < 1 ∨ k > (topicList.length : Int)) := by omega
    simp only [step, browseTopic, hnb, if_false, hparse, hrange, hsel, topicMenu, hrun]
    simp
  · intro reg2 h2 s input
    exact ⟨(run_same reg reg2 h2 input s).2, (run_same reg reg2 h2 input s).1⟩

/-- C14 at a concrete registry: the shipped topics with no routine registered
at all; the first tutorial topic prints the placeholder and the session
`1`, `n`, `m`, `2`, `2`, `1` ends where it ends with the shipped registry. -/
theorem unknown_topic_recoverable_witness :
    (step (Registry.mk topics []) State.Root "1").1
        = [Event.clearScreen,
           Event.PrintColoredTitle "Tutorial (1/9): Basic Interfaces" ColorYellow,
           Event.Printf "Example for %s is not implemented yet.\n"
             [Arg.str "Basic Interfaces"]] ++ tutorialOptions ∧
      (run (Registry.mk topics []) State.Root ["1", "n", "m", "2", "2", "1"]).2
        = (run shipped State.Root ["1", "n", "m", "2", "2", "1"]).2 :=
  ⟨by decide,
   ((unknown_topic_recoverable (Registry.mk topics []) "Basic Interfaces" (by decide)).2.2.2.2
      shipped rfl State.Root ["1", "n", "m", "2", "2", "1"]).1⟩

/-! ## C18: the order of the entries of the maps is irrelevant -/

theorem lookup_perm {β : Type} {m m2 : GoMap β} (hp : m.Perm m2) :
    (keys m).Nodup → ∀ k : String, m.lookup k = m2.lookup k := by
  induction hp with
  | nil => intro _ _; rfl
  | @cons x l1 l2 _ ih =>
    intro hn k
    have hn2 : (keys l1).Nodup := by
      unfold keys at hn ⊢
      rw [List.map_cons] at hn
      exact (List.nodup_cons.mp hn).2
    obtain ⟨a, b⟩ := x
    simp only [List.lookup_cons]
    rw [ih hn2 k]
  | swap x y l =>
    intro hn k
    obtain ⟨a, b⟩ := x
    obtain ⟨c, d⟩ := y
    have hne : c ≠ a := by
      intro h
      simp [keys, h] at hn
    simp only [List.lookup_cons]
    by_cases h1 : k = c
    · have hb : (k == a) = false := by
        rw [h1]; exact beq_false_of_ne hne
      have hc : (k == c) = true := by rw [h1]; exact beq_self_eq_true c
      rw [hb, hc]
    · have hc : (k == c) = false := beq_false_of_ne h1
      rw [hc]
  | trans hp1 _ ih1 ih2 =>
    intro hn k
    have hn2 := (List.Perm.nodup_iff (List.Perm.map Prod.fst hp1)).mp hn
    rw [ih1 hn k, ih2 hn2 k]

theorem index_perm {m m2 : GoMap (List String)} (hp : m.Perm m2) (hn : (keys m).Nodup)
    (k : String) : index m k = index m2 k := by
  unfold index
  rw [lookup_perm hp hn k]

theorem runExample_congr (reg reg2 : Registry)
    (h : ∀ t, reg.exampleFunctions.lookup t = reg2.exampleFunctions.lookup t) :
    runExample reg = runExample reg2 := by
  funext t
  unfold runExample
  rw [h t]

theorem tutorialLoop_congr (reg reg2 : Registry) (h : runExample reg = runExample reg2)
    (n : Nat) (rest : List String) :
    ∀ i, tutorialLoop reg n i rest = tutorialLoop reg2 n i rest := by
  induction rest with
  | nil => intro i; rfl
  | cons t ts ih =>
    intro i
    simp only [tutorialLoop, tutorialShow, h, ih (i + 1)]

theorem step_congr (reg reg2 : Registry)
    (ht : ∀ k, index reg.topics k = index reg2.topics k)
    (hf : ∀ t, reg.exampleFunctions.lookup t = reg2.exampleFunctions.lookup t)
    (s : State) (text : String) : step reg s text = step reg2 s text := by
  have hrun := runExample_congr reg reg2 hf
  have hall : allTopics reg = allTopics reg2 := by
    unfold allTopics; rw [ht, ht]
  cases s with
  | Root =>
    simp only [step, tutorialMode, hall, tutorialLoop_congr reg reg2 hrun]
  | TutorialAt i =>
    simp only [step, tutorialResume, hall, tutorialLoop_congr reg reg2 hrun]
  | BrowseCategoryMenu =>
    simp only [step, browseCategory, ht]
  | BrowseTopicMenu topicList categoryTitle =>
    simp only [step, browseTopic, hrun]
  | Terminated => rfl
  | Panicked => rfl

theorem run_congr (reg reg2 : Registry) (h : ∀ s text, step reg s text = step reg2 s text)
    (input : List String) : ∀ s, run reg s input = run reg2 s input := by
  induction input with
  | nil => intro s; rfl
  | cons text rest ih =>
    intro s
    simp only [run, h, ih]

/-- C18: the controller reads the two maps only by key (`topics["interfaces"]`,
`topics["enums"]`, `exampleFunctions[topic]`), never by iterating over them:
two registries whose maps hold the same entries in a different order (keys
being distinct, as in a Go map) behave alike, step by step and on every
sequence of lines; the tutorial order and the numbering of each topic menu are
the declared orders of the two slices; and the trace of calls is a function
of the lines read. -/
theorem order_deterministic (reg reg2 : Registry)
    (hp : reg.topics.Perm reg2.topics) (hn : (keys reg.topics).Nodup)
    (hq : reg.exampleFunctions.Perm reg2.exampleFunctions)
    (hm : (keys reg.exampleFunctions).Nodup) :
    allTopics reg = allTopics reg2 ∧
    (∀ (s : State) (text : String), step reg s text = step reg2 s text) ∧
    (∀ (s : State) (input : List String), run reg s input = run reg2 s input) ∧
    (∀ (s : State) (input input2 : List String), input = input2 →
      calls (run reg s input).1 = calls (run reg2 s input2).1 ∧
      (run reg s input).1 = (run reg2 s input2).1) := by
  have ht := index_perm hp hn
  have hf := lookup_perm hq hm
  have hstep := step_congr reg reg2 ht hf
  refine ⟨?_, hstep, ?_, ?_⟩
  · unfold allTopics; rw [ht, ht]
  · intro s input
    exact run_congr reg reg2 hstep input s
  · intro s input input2 h
    rw [h, run_congr reg reg2 hstep input2 s]
    exact ⟨rfl, rfl⟩

/-- C18 at a concrete registry: the shipped maps with their entries in reverse
order. -/
theorem order_deterministic_witness :
    allTopics shipped = allTopics (Registry.mk topics.reverse exampleFunctions.reverse) ∧
      run shipped State.Root ["1", "n", "m", "2", "2", "3"]
        = run (Registry.mk topics.reverse exampleFunctions.reverse) State.Root
            ["1", "n", "m", "2", "2", "3"] :=
  ⟨(order_deterministic shipped (Registry.mk topics.reverse exampleFunctions.reverse)
      (List.reverse_perm topics).symm (by decide)
      (List.reverse_perm exampleFunctions).symm (by decide)).1,
   (order_deterministic shipped (Registry.mk topics.reverse exampleFunctions.reverse)
      (List.reverse_perm topics).symm (by decide)
      (List.reverse_perm exampleFunctions).symm (by decide)).2.2.1 State.Root
      ["1", "n", "m", "2", "2", "3"]⟩

/-! ## C19: lines are trimmed before they are interpreted -/

theorem dropWhile_space_append (a l : List Char) (ha : ∀ c ∈ a, isSpace c = true) :
    (a ++ l).dropWhile isSpace = l.dropWhile isSpace := by
  induction a with
  | nil => rfl
  | cons x xs ih =>
    have hx : isSpace x = true := ha x (List.mem_cons_self _ _)
    rw [List.cons_append, List.dropWhile_cons, hx]
    exact ih (fun c hc => ha c (List.mem_cons_of_mem _ hc))

theorem dropWhile_space_tail (l b : List Char) (hb : ∀ c ∈ b, isSpace c = true) :
    ((l ++ b).dropWhile isSpace).reverse.dropWhile isSpace
      = (l.dropWhile isSpace).reverse.dropWhile isSpace := by
  induction l with
  | nil =>
    have h := dropWhile_space_append b [] hb
    rw [List.append_nil] at h
    rw [List.nil_append, h]
  | cons x xs ih =>
    by_cases hx : isSpace x = true
    · rw [List.cons_append, List.dropWhile_cons, List.dropWhile_cons, hx]
      exact ih
    · have hx2 : isSpace x = false := by simpa using hx
      rw [List.cons_append, List.dropWhile_cons, List.dropWhile_cons, hx2]
      simp only [Bool.false_eq_true, if_false, List.reverse_cons, List.reverse_append,
        List.append_assoc]
      exact dropWhile_space_append b.reverse _
        (fun c hc => hb c (List.mem_reverse.mp hc))

/-- White space around a line does not change its token. -/
theorem trimSpace_padded (a b : List Char) (text : String)
    (ha : ∀ c ∈ a, isSpace c = true) (hb : ∀ c ∈ b, isSpace c = true) :
    TrimSpace ⟨a ++ text.data ++ b⟩ = TrimSpace text := by
  unfold TrimSpace
  simp only [List.append_assoc]
  rw [dropWhile_space_append a _ ha, dropWhile_space_tail text.data b hb]

theorem step_of_trimSpace_eq (reg : Registry) (s : State) (text text2 : String)
    (h : TrimSpace text = TrimSpace text2) : step reg s text = step reg s text2 := by
  cases s with
  | Root => simp only [step, h]
  | TutorialAt i => simp only [step, tutorialResume, h]
  | BrowseCategoryMenu => simp only [step, browseCategory, h]
  | BrowseTopicMenu topicList categoryTitle => simp only [step, browseTopic, h]
  | Terminated => rfl
  | Panicked => rfl

/-- C19: in every state the step depends on the line only through
`strings.TrimSpace`: two lines with the same trimmed token, in particular a
line and the same line with white space added in front and behind, cause the
same calls and lead to the same state.  So ` q ` quits at the main menu, ` m `
leaves the tutorial for the main menu, and ` 2 ` selects topic 2 in a topic
menu. -/
theorem tokens_trimmed (reg : Registry) (s : State) (text : String) :
    (∀ text2 : String, TrimSpace text = TrimSpace text2 →
      step reg s text = step reg s text2) ∧
    (∀ a b : List Char, (∀ c ∈ a, isSpace c = true) → (∀ c ∈ b, isSpace c = true) →
      TrimSpace ⟨a ++ text.data ++ b⟩ = TrimSpace text ∧
      step reg s ⟨a ++ text.data ++ b⟩ = step reg s text ∧
      calls (step reg s ⟨a ++ text.data ++ b⟩).1 = calls (step reg s text).1) ∧
    (step reg State.Root " q ").2 = State.Terminated ∧
    step reg State.Root " q " = step reg State.Root "q" ∧
    (∀ i, (step reg (State.TutorialAt i) " m ").2 = State.Root ∧
      step reg (State.TutorialAt i) " m " = step reg (State.TutorialAt i) "m") ∧
    (∀ (topicList : List String) (categoryTitle t : String), topicList[1]? = some t →
      step reg (State.BrowseTopicMenu topicList categoryTitle) " 2 "
        = ([Event.clearScreen, Event.PrintColoredTitle t ColorYellow]
             ++ runExample reg t ++ [Event.PressEnterToContinue]
             ++ (topicMenu topicList categoryTitle).1,
           State.BrowseTopicMenu topicList categoryTitle) ∧
      step reg (State.BrowseTopicMenu topicList categoryTitle) " 2 "
        = step reg (State.BrowseTopicMenu topicList categoryTitle) "2") := by
  have hq : TrimSpace " q " = TrimSpace "q" := by decide
  have hm : TrimSpace " m " = TrimSpace "m" := by decide
  have h2 : TrimSpace " 2 " = TrimSpace "2" := by decide
  refine ⟨step_of_trimSpace_eq reg s text, ?_, ?_, step_of_trimSpace_eq reg _ _ _ hq, ?_, ?_⟩
  · intro a b ha hb
    have h := trimSpace_padded a b text ha hb
    have hstep := step_of_trimSpace_eq reg s _ text h
    exact ⟨h, hstep, by rw [hstep]⟩
  · have h : TrimSpace " q " = "q" := by decide
    simp [step, h]
  · intro i
    refine ⟨?_, step_of_trimSpace_eq reg _ _ _ hm⟩
    rw [step_tutorial_menu reg i " m " (by decide)]
    rfl
  · intro topicList categoryTitle t ht
    refine ⟨?_, step_of_trimSpace_eq reg _ _ _ h2⟩
    have hlen : 1 < topicList.length := (List.getElem?_eq_some.mp ht).1
    have hsel : topicList[((2 : Int) - 1).toNat]? = some t := ht
    have hparse : Atoi (TrimSpace " 2 ") = some 2 := by decide
    have hnb := not_back_of_atoi hparse
    have hrange : ¬ ((2 : Int) < 1 ∨ (2 : Int) > (topicList.length : Int)) := by omega
    simp only [step, browseTopic, hnb, if_false, hparse, hrange, hsel, topicMenu]

/-- C19 at concrete inputs: tabs and spaces around `1` at the main menu, and
` 2 ` in the topic menu of "enums". -/
theorem tokens_trimmed_witness :
    step shipped State.Root ⟨['\t', ' '] ++ "1".data ++ [' ', '\r']⟩
        = step shipped State.Root "1" ∧
      calls (step shipped (State.BrowseTopicMenu (index topics "enums") "Enums") " 2 ").1
        = [Routine.IotaEnums] :=
  ⟨((tokens_trimmed shipped State.Root "1").2.1 ['\t', ' '] [' ', '\r']
      (by decide) (by decide)).2.1,
   by decide⟩

/-! ## C20: the result of `GetUserChoice` -/

theorem getUserChoice_error (Sscanf : String → Except String Int) (prompt : String)
    (options : List String) (line err : String)
    (hs : Sscanf (TrimSpace line) = Except.error err) :
    (GetUserChoice Sscanf prompt options line).2 = (0, some err) := by
  unfold GetUserChoice GetUserInput
  simp only [hs]

theorem getUserChoice_ok (Sscanf : String → Except String Int) (prompt : String)
    (options : List String) (line : String) (c : Int)
    (hs : Sscanf (TrimSpace line) = Except.ok c) :
    (GetUserChoice Sscanf prompt options line).2
      = if 1 ≤ c ∧ c ≤ (options.length : Int) then (c, none)
        else (0, some ("invalid choice: " ++ toString c)) := by
  unfold GetUserChoice GetUserInput
  simp only [hs]
  by_cases hr : c < 1 ∨ c > (options.length : Int)
  · have hr2 : ¬ (1 ≤ c ∧ c ≤ (options.length : Int)) := by omega
    rw [if_pos hr, if_neg hr2]
  · have hr2 : 1 ≤ c ∧ c ≤ (options.length : Int) := by omega
    rw [if_neg hr, if_pos hr2]

/-- C20: whatever `fmt.Sscanf` makes of the line, `GetUserChoice` returns
either a choice `c` with 1 ≤ c ≤ len(options) and the nil error, or the choice
0 and a non-nil error (the one of `Sscanf`, or "invalid choice: c" for a
number out of range); so a non-zero choice never comes with an error, and for
an empty list of options the error is never nil. -/
theorem getUserChoice_result (Sscanf : String → Except String Int) (prompt : String)
    (options : List String) (line : String) :
    (((GetUserChoice Sscanf prompt options line).2.2 = none ∧
        1 ≤ (GetUserChoice Sscanf prompt options line).2.1 ∧
        (GetUserChoice Sscanf prompt options line).2.1 ≤ (options.length : Int)) ∨
      ((GetUserChoice Sscanf prompt options line).2.1 = 0 ∧
        (GetUserChoice Sscanf prompt options line).2.2 ≠ none)) ∧
    ((GetUserChoice Sscanf prompt options line).2.1 ≠ 0 →
      (GetUserChoice Sscanf prompt options line).2.2 = none) ∧
    (options = [] → (GetUserChoice Sscanf prompt options line).2.2 ≠ none) ∧
    (∀ err, Sscanf (TrimSpace line) = Except.error err →
      (GetUserChoice Sscanf prompt options line).2 = (0, some err)) ∧
    (∀ c, Sscanf (TrimSpace line) = Except.ok c →
      (GetUserChoice Sscanf prompt options line).2
        = if 1 ≤ c ∧ c ≤ (options.length : Int) then (c, none)
          else (0, some ("invalid choice: " ++ toString c))) := by
  have hok := getUserChoice_ok Sscanf prompt options line
  have herr := getUserChoice_error Sscanf prompt options line
  refine ⟨?_, ?_, ?_, herr, hok⟩
  · cases hs : Sscanf (TrimSpace line) with
    | error err => right; rw [herr err hs]; simp
    | ok c =>
      rw [hok c hs]
      by_cases hr : 1 ≤ c ∧ c ≤ (options.length : Int)
      · left; rw [if_pos hr]; exact ⟨rfl, hr⟩
      · right; rw [if_neg hr]; simp
  · intro hne
    cases hs : Sscanf (TrimSpace line) with
    | error err => rw [herr err hs] at hne; exact absurd rfl hne
    | ok c =>
      rw [hok c hs] at hne ⊢
      by_cases hr : 1 ≤ c ∧ c ≤ (options.length : Int)
      · rw [if_pos hr]
      · rw [if_neg hr] at hne; exact absurd rfl hne
  · intro hopt
    cases hs : Sscanf (TrimSpace line) with
    | error err => rw [herr err hs]; simp
    | ok c =>
      rw [hok c hs]
      have hr : ¬ (1 ≤ c ∧ c ≤ (options.length : Int)) := by
        rw [hopt]; simp only [List.length_nil]; omega
      rw [if_neg hr]
      simp

/-- C20 at concrete inputs, `Sscanf` being taken to read a number as
`strconv.Atoi` does: the line `2` with three options, the line `7` with three
options, and the line `1` with no option. -/
theorem getUserChoice_result_witness :
    (GetUserChoice (fun s => match Atoi s with
        | some k => Except.ok k
        | none => Except.error "expected integer") "Choice: " ["a", "b", "c"] "2\n").2
        = (2, none) ∧
      (GetUserChoice (fun s => match Atoi s with
        | some k => Except.ok k
        | none => Except.error "expected integer") "Choice: " ["a", "b", "c"] "7\n").2
        = (0, some "invalid choice: 7") ∧
      (GetUserChoice (fun s => match Atoi s with
        | some k => Except.ok k
        | none => Except.error "expected integer") "Choice: " [] "1\n").2.2 ≠ none :=
  ⟨by decide, by decide,
   (getUserChoice_result (fun s => match Atoi s with
        | some k => Except.ok k
        | none => Except.error "expected integer") "Choice: " [] "1\n").2.2.1 rfl⟩

/-! ## C21: the title of a tutorial topic -/

theorem tutorialLoop_head (reg : Registry) (n i : Nat) (t : String) (rest : List String) :
    ∃ more : List Event,
      (thenMain (tutorialLoop reg n i (t :: rest))).1 = tutorialShow reg n i t ++ more := by
  by_cases hi : i < n - 1
  · exact ⟨tutorialOptions, by simp [tutorialLoop, hi, thenMain]⟩
  · refine ⟨[completion, Event.PressEnterToContinue]
      ++ (thenMain (tutorialLoop reg n (i + 1) rest)).1, ?_⟩
    simp only [tutorialLoop, hi, if_false, thenMain]
    cases (tutorialLoop reg n (i + 1) rest).2 <;> simp

theorem tutorial_first (reg : Registry) (t : String) (ht : (allTopics reg)[0]? = some t) :
    ∃ more : List Event,
      (step reg State.Root "1").1 = tutorialShow reg (allTopics reg).length 0 t ++ more := by
  obtain ⟨hlt, hget⟩ := List.getElem?_eq_some.mp ht
  have hdrop : allTopics reg = t :: (allTopics reg).drop 1 := by
    have h := List.drop_eq_getElem_cons hlt
    rw [List.drop_zero, hget] at h
    exact h
  have h1 : TrimSpace "1" = "1" := by decide
  have hstep : step reg State.Root "1" = thenMain (tutorialMode reg) := by
    simp only [step, h1]
    rfl
  obtain ⟨more, hmore⟩ :=
    tutorialLoop_head reg (allTopics reg).length 0 t ((allTopics reg).drop 1)
  refine ⟨more, ?_⟩
  rw [hstep, ← hmore]
  unfold tutorialMode
  rw [← hdrop]

/-- C21: the title `tutorialMode` shows for the topic at index i of the N
tutorial topics is "Tutorial (i+1/N): <topic>", the topic being the i-th
element of the sequence walked; the call made right after the title is the
dispatch for that same topic, hence the call of the routine registered for
it; the position shown runs from 1 to N.  This holds on entering the tutorial
(index 0) and on every advance (index i+1); in the shipped program a full
walk shows "Tutorial (1/9): Basic Interfaces" up to
"Tutorial (9/9): Behavior Enums". -/
theorem tutorial_title (reg : Registry) :
    (∀ (i n : Nat) (topic : String),
      tutorialShow reg n i topic
        = [Event.clearScreen,
           Event.PrintColoredTitle
             ("Tutorial (" ++ toString (i + 1) ++ "/" ++ toString n ++ "): " ++ topic)
             ColorYellow] ++ runExample reg topic) ∧
    (∀ (topic : String) (fn : Routine), reg.exampleFunctions.lookup topic = some fn →
      runExample reg topic = [Event.call fn]) ∧
    (∀ t : String, (allTopics reg)[0]? = some t →
      ∃ more : List Event,
        (step reg State.Root "1").1 = tutorialShow reg (allTopics reg).length 0 t ++ more) ∧
    (∀ (i : Nat) (t text : String), ¬ isMenuToken text → (allTopics reg)[i + 1]? = some t →
      ∃ more : List Event,
        (step reg (State.TutorialAt i) text).1
          = tutorialShow reg (allTopics reg).length (i + 1) t ++ more) ∧
    (∀ (i : Nat) (t : String), (allTopics reg)[i]? = some t →
      1 ≤ i + 1 ∧ i + 1 ≤ (allTopics reg).length) ∧
    yellowTitles (run shipped State.Root ["1", "n", "n", "n", "n", "n", "n", "n", "n"]).1
      = ["Tutorial (1/9): Basic Interfaces", "Tutorial (2/9): Interface Implementation",
         "Tutorial (3/9): Empty Interface", "Tutorial (4/9): Type Assertion",
         "Tutorial (5/9): Interface Composition", "Tutorial (6/9): Basic Enums",
         "Tutorial (7/9): Iota Enums", "Tutorial (8/9): String Enums",
         "Tutorial (9/9): Behavior Enums"] := by
  refine ⟨?_, ?_, tutorial_first reg, ?_, ?_, by decide⟩
  · intro i n topic; rfl
  · intro topic fn h
    unfold runExample
    rw [h]
  · intro i t text hm ht
    obtain ⟨more, h1, _⟩ := tutorial_next reg i t text hm ht
    exact ⟨more, h1⟩
  · intro i t ht
    have hlt := (List.getElem?_eq_some.mp ht).1
    omega

/-- C21 at a concrete step: the token `n` typed at the third topic of the
shipped program shows the fourth. -/
theorem tutorial_title_witness :
    ∃ more : List Event,
      (step shipped (State.TutorialAt 2) "n").1
        = tutorialShow shipped (allTopics shipped).length (2 + 1) "Type Assertion" ++ more :=
  (tutorial_title shipped).2.2.2.1 2 "Type Assertion" "n" (by decide) (by decide)

/-! ## C22: how the two browse menus read a number -/

theorem browseTopic_selected_iff (reg : Registry) (topicList : List String)
    (categoryTitle text t : String) :
    step reg (State.BrowseTopicMenu topicList categoryTitle) text
        = ([Event.clearScreen, Event.PrintColoredTitle t ColorYellow]
             ++ runExample reg t ++ [Event.PressEnterToContinue]
             ++ (topicMenu topicList categoryTitle).1,
           State.BrowseTopicMenu topicList categoryTitle)
      ↔ ∃ k : Int, Atoi (TrimSpace text) = some k ∧ 1 ≤ k ∧ k ≤ (topicList.length : Int) ∧
          topicList[(k - 1).toNat]? = some t := by
  constructor
  · intro h
    simp only [step, browseTopic] at h
    by_cases hb : TrimSpace text = "b" ∨ TrimSpace text = "B"
    · simp only [hb, if_true] at h
      have h2 := congrArg Prod.snd h
      simp [categoryMenu] at h2
    · simp only [hb, if_false] at h
      cases hparse : Atoi (TrimSpace text) with
      | none =>
        rw [hparse] at h
        have h1 := congrArg Prod.fst h
        simp at h1
      | some k =>
        rw [hparse] at h
        simp only at h
        by_cases hrange : k < 1 ∨ k > (topicList.length : Int)
        · simp only [hrange, if_true] at h
          have h1 := congrArg Prod.fst h
          simp at h1
        · simp only [hrange, if_false] at h
          obtain ⟨hk1, hk2, sel, hsel⟩ := index_in_range topicList k hrange
          rw [hsel] at h
          have h1 := congrArg Prod.fst h
          simp only [List.cons_append, List.nil_append, List.cons.injEq,
            Event.PrintColoredTitle.injEq, true_and] at h1
          exact ⟨k, rfl, hk1, hk2, by rw [hsel, h1.1.1]⟩
  · rintro ⟨k, hparse, hk1, hk2, hsel⟩
    have hnb := not_back_of_atoi hparse
    have hrange : ¬ (k < 1 ∨ k > (topicList.length : Int)) := by omega
    simp only [step, browseTopic, hnb, if_false, hparse, hrange, hsel, topicMenu]

theorem browseCategory_enters_iff (reg : Registry) (text : String) :
    (∃ (topicList : List String) (categoryTitle : String),
        (step reg State.BrowseCategoryMenu text).2
          = State.BrowseTopicMenu topicList categoryTitle)
      ↔ (TrimSpace text = "1" ∨ TrimSpace text = "2") := by
  constructor
  · rintro ⟨topicList, categoryTitle, h⟩
    by_contra hne
    have h1 : ¬ TrimSpace text = "1" := fun e => hne (Or.inl e)
    have h2 : ¬ TrimSpace text = "2" := fun e => hne (Or.inr e)
    simp only [step, browseCategory, h1, h2, if_false] at h
    by_cases hb : TrimSpace text = "b" ∨ TrimSpace text = "B"
    · simp [hb, thenMain, mainLoop] at h
    · simp [hb, thenMain, categoryMenu] at h
  · rintro (h | h)
    · exact ⟨index reg.topics "interfaces", "Interfaces", by
        simp [step, browseCategory, h, thenMain, topicMenu]⟩
    · exact ⟨index reg.topics "enums", "Enums", by
        simp [step, browseCategory, h, thenMain, topicMenu]⟩

/-- C22: in a topic menu a token selects the topic `t` exactly when
`strconv.Atoi` reads it as an integer k with 1 ≤ k ≤ len(topicList) and
`topicList[k-1]` is `t`; so `+2` and `02`, which `Atoi` reads as 2, do what
`2` does.  In the category menu a topic menu is entered exactly when the token
is the string `1` or the string `2`; `+2` and `02` are reported as an invalid
category. -/
theorem menus_parse_differently (reg : Registry) (topicList : List String)
    (categoryTitle text : String) :
    (∀ t : String,
      step reg (State.BrowseTopicMenu topicList categoryTitle) text
          = ([Event.clearScreen, Event.PrintColoredTitle t ColorYellow]
               ++ runExample reg t ++ [Event.PressEnterToContinue]
               ++ (topicMenu topicList categoryTitle).1,
             State.BrowseTopicMenu topicList categoryTitle)
        ↔ ∃ k : Int, Atoi (TrimSpace text) = some k ∧ 1 ≤ k ∧
            k ≤ (topicList.length : Int) ∧ topicList[(k - 1).toNat]? = some t) ∧
    Atoi (TrimSpace "+2") = some 2 ∧ Atoi (TrimSpace "02") = some 2 ∧
    step reg (State.BrowseTopicMenu topicList categoryTitle) "+2"
      = step reg (State.BrowseTopicMenu topicList categoryTitle) "2" ∧
    step reg (State.BrowseTopicMenu topicList categoryTitle) "02"
      = step reg (State.BrowseTopicMenu topicList categoryTitle) "2" ∧
    ((∃ (l : List String) (c : String),
        (step reg State.BrowseCategoryMenu text).2 = State.BrowseTopicMenu l c)
      ↔ (TrimSpace text = "1" ∨ TrimSpace text = "2")) ∧
    step reg State.BrowseCategoryMenu "+2"
      = ([Event.Println "Invalid category. Please try again.", Event.PressEnterToContinue]
           ++ categoryMenu.1,
         State.BrowseCategoryMenu) ∧
    step reg State.BrowseCategoryMenu "02"
      = ([Event.Println "Invalid category. Please try again.", Event.PressEnterToContinue]
           ++ categoryMenu.1,
         State.BrowseCategoryMenu) := by
  have hp : Atoi (TrimSpace "+2") = some 2 := by decide
  have hz : Atoi (TrimSpace "02") = some 2 := by decide
  have h2 : Atoi (TrimSpace "2") = some 2 := by decide
  have tp : TrimSpace "+2" = "+2" := by decide
  have tz : TrimSpace "02" = "02" := by decide
  refine ⟨fun t => browseTopic_selected_iff reg topicList categoryTitle text t, hp, hz,
    ?_, ?_, browseCategory_enters_iff reg text, ?_, ?_⟩
  · simp only [step, browseTopic, not_back_of_atoi hp, not_back_of_atoi h2, hp, h2, if_false]
  · simp only [step, browseTopic, not_back_of_atoi hz, not_back_of_atoi h2, hz, h2, if_false]
  · simp [step, browseCategory, tp, thenMain, categoryMenu]
  · simp [step, browseCategory, tz, thenMain, categoryMenu]

/-- C22 at concrete inputs: in the shipped program `+2` and `02` select
"Iota Enums" in the topic menu of "enums" and are invalid in the category
menu. -/
theorem menus_parse_differently_witness :
    calls (step shipped (State.BrowseTopicMenu (index topics "enums") "Enums") "+2").1
        = [Routine.IotaEnums] ∧
      calls (step shipped (State.BrowseTopicMenu (index topics "enums") "Enums") "02").1
        = [Routine.IotaEnums] ∧
      step shipped State.BrowseCategoryMenu "+2"
        = ([Event.Println "Invalid category. Please try again.",
            Event.PressEnterToContinue] ++ categoryMenu.1,
           State.BrowseCategoryMenu) :=
  ⟨by decide, by decide,
   (menus_parse_differently shipped [] "" "").2.2.2.2.2.2.1⟩

/-! ## C23: no routine without a topic -/

/-- C23: the keys of `exampleFunctions` are exactly the 9 topics of the
catalog, each occurring in exactly one of the two category lists; and every
registered routine is called by the tutorial (in a full walk) and can be
called from browse mode (by a category token and a topic number). -/
theorem no_orphan_routines :
    keys exampleFunctions = allTopics shipped ∧
    (keys exampleFunctions).Nodup ∧
    (keys exampleFunctions).length = 9 ∧
    (∀ k : String, k ∈ keys exampleFunctions ↔ k ∈ allTopics shipped) ∧
    (∀ k ∈ keys exampleFunctions,
      (index topics "interfaces").count k + (index topics "enums").count k = 1) ∧
    (∀ p ∈ exampleFunctions,
      p.2 ∈ calls (run shipped State.Root ["1", "n", "n", "n", "n", "n", "n", "n", "n"]).1) ∧
    (∀ p ∈ exampleFunctions, ∃ category number : String,
      calls (run shipped State.Root ["2", category, number]).1 = [p.2]) := by
  have hkeys : keys exampleFunctions = allTopics shipped := by decide
  refine ⟨hkeys, by decide, by decide, ?_, by decide, by decide, ?_⟩
  · intro k
    rw [hkeys]
  · intro p hp
    simp only [exampleFunctions, List.mem_cons, List.mem_singleton] at hp
    rcases hp with rfl | rfl | rfl | rfl | rfl | rfl | rfl | rfl | rfl | hp
    · exact ⟨"1", "1", by decide⟩
    · exact ⟨"1", "2", by decide⟩
    · exact ⟨"1", "3", by decide⟩
    · exact ⟨"1", "4", by decide⟩
    · exact ⟨"1", "5", by decide⟩
    · exact ⟨"2", "1", by decide⟩
    · exact ⟨"2", "2", by decide⟩
    · exact ⟨"2", "3", by decide⟩
    · exact ⟨"2", "4", by decide⟩
    · cases hp

/-- C23 at a concrete routine: `TypeAssertion` is registered under a topic of
"interfaces" only and is reached by `2`, `1`, `4`. -/
theorem no_orphan_routines_witness :
    (index topics "interfaces").count "Type Assertion"
        + (index topics "enums").count "Type Assertion" = 1 ∧
      calls (run shipped State.Root ["2", "1", "4"]).1 = [Routine.TypeAssertion] :=
  ⟨no_orphan_routines.2.2.2.2.1 "Type Assertion" (by decide), by decide⟩

/-! ## C24: the tutorial returns -/

theorem tutorialLoop_blocked_bound (reg : Registry) (n : Nat) (rest : List String) :
    ∀ i s, (tutorialLoop reg n i rest).2 = some s →
      ∃ j, s = State.TutorialAt j ∧ j + 1 < n := by
  induction rest with
  | nil => intro i s h; simp [tutorialLoop] at h
  | cons t ts ih =>
    intro i s h
    unfold tutorialLoop at h
    by_cases hi : i < n - 1
    · simp only [hi, if_true, Option.some.injEq] at h
      exact ⟨i, h.symm, by omega⟩
    · simp only [hi, if_false] at h
      exact ih (i + 1) s h

theorem length_toList_le_one {α : Type} (o : Option α) : o.toList.length ≤ 1 := by
  cases o <;> simp

theorem tutorial_returns (reg : Registry) (input : List String) :
    ∀ (i : Nat) (rest : List String), (allTopics reg).drop i = rest →
      input.length = rest.length - 1 →
      ∃ k, k ≤ input.length ∧
        (resume reg (thenMain (tutorialLoop reg (allTopics reg).length i rest))
          (input.take k)).2 = State.Root ∧
        (∀ j, j < k →
          (resume reg (thenMain (tutorialLoop reg (allTopics reg).length i rest))
            (input.take j)).2 = State.TutorialAt (i + j)) ∧
        (calls (resume reg (thenMain (tutorialLoop reg (allTopics reg).length i rest))
          (input.take k)).1).length ≤ rest.length := by
  induction input with
  | nil =>
    intro i rest hdrop hlen
    have hn := length_of_drop_eq hdrop
    refine ⟨0, Nat.le_refl _, ?_, fun j hj => absurd hj (Nat.not_lt_zero j), ?_⟩
    · match rest, hlen with
      | [], _ => simp [resume_nil, tutorialLoop, thenMain, mainLoop]
      | [t], _ =>
        have hi : ¬ i < (allTopics reg).length - 1 := by
          simp only [List.length_cons, List.length_nil] at hn; omega
        simp [resume_nil, tutorialLoop, hi, thenMain, mainLoop]
      | t :: t2 :: r, hlen => simp at hlen
    · match rest, hlen with
      | [], _ => simp [resume_nil, tutorialLoop, thenMain, calls_mainLoop]
      | [t], _ =>
        have hi : ¬ i < (allTopics reg).length - 1 := by
          simp only [List.length_cons, List.length_nil] at hn; omega
        simp only [List.take_nil, resume_nil, tutorialLoop, hi, if_false, thenMain,
          calls_append, calls_tutorialShow, calls_mainLoop, List.append_nil,
          List.length_append, List.length_cons, List.length_nil]
        have := length_toList_le_one (reg.exampleFunctions.lookup t)
        simp [calls]
        omega
      | t :: t2 :: r, hlen => simp at hlen
  | cons x xs ih =>
    intro i rest hdrop hlen
    have hn := length_of_drop_eq hdrop
    match rest, hlen with
    | [], hlen => simp at hlen
    | [t], hlen => simp at hlen
    | t :: t2 :: r, hlen =>
      have hi : i < (allTopics reg).length - 1 := by
        simp only [List.length_cons] at hn; omega
      have hdrop2 := drop_succ_of_drop_cons hdrop
      have hblock : thenMain (tutorialLoop reg (allTopics reg).length i (t :: t2 :: r))
          = (tutorialShow reg (allTopics reg).length i t ++ tutorialOptions,
             State.TutorialAt i) := by
        simp [tutorialLoop, hi, thenMain]
      have hshow := length_toList_le_one (reg.exampleFunctions.lookup t)
      by_cases hm : isMenuToken x
      · refine ⟨1, by simp, ?_, ?_, ?_⟩
        · rw [List.take_succ_cons, List.take_zero, resume_single, hblock,
            step_tutorial_menu reg i x hm]
          rfl
        · intro j hj
          have hj0 : j = 0 := by omega
          subst hj0
          rw [List.take_zero, resume_nil, hblock]
          rfl
        · rw [List.take_succ_cons, List.take_zero, resume_single, hblock,
            step_tutorial_menu reg i x hm]
          simp only [calls_append, calls_tutorialShow, calls_tutorialOptions, calls_mainLoop,
            List.append_nil, List.length_cons]
          omega
      · have hlen2 : xs.length = (t2 :: r).length - 1 := by
          simp only [List.length_cons] at hlen ⊢; omega
        obtain ⟨k, hk, h1, h2, h3⟩ := ih (i + 1) (t2 :: r) hdrop2 hlen2
        refine ⟨k + 1, by simp only [List.length_cons]; omega, ?_, ?_, ?_⟩
        · rw [List.take_succ_cons, tutorial_advance reg i t x (t2 :: r) _ hi hm, hdrop2]
          exact h1
        · intro j hj
          cases j with
          | zero =>
            rw [List.take_zero, resume_nil, hblock]
            rfl
          | succ j2 =>
            rw [List.take_succ_cons, tutorial_advance reg i t x (t2 :: r) _ hi hm, hdrop2]
            have := h2 j2 (by omega)
            simp only [this]
            congr 1
            omega
        · rw [List.take_succ_cons, tutorial_advance reg i t x (t2 :: r) _ hi hm, hdrop2]
          simp only [calls_append, calls_tutorialShow, calls_tutorialOptions,
            List.append_nil, List.length_append, List.length_cons] at h3 ⊢
          omega

/-- C24: `tutorialMode` returns on every input: of any N-1 lines (N the number
of tutorial topics; the empty line stands for a read on an exhausted input) it
reads some k ≤ N-1, being blocked in its loop before each of them, and is
back at the main menu after the k-th, having called at most N routines; and it
never blocks on the scanner at the last topic (the index it blocks at is
below N-1).  On an exhausted input the shipped program shows all 9 topics and
returns. -/
theorem tutorial_terminates (reg : Registry) (input : List String)
    (hlen : input.length = (allTopics reg).length - 1) :
    (∃ k, k ≤ (allTopics reg).length - 1 ∧
      (run reg State.Root ("1" :: input.take k)).2 = State.Root ∧
      (∀ j, j < k → (run reg State.Root ("1" :: input.take j)).2 = State.TutorialAt j) ∧
      (calls (run reg State.Root ("1" :: input.take k)).1).length
        ≤ (allTopics reg).length) ∧
    (∀ (i : Nat) (rest : List String) (s : State),
      (tutorialLoop reg (allTopics reg).length i rest).2 = some s →
      ∃ j, s = State.TutorialAt j ∧ j + 1 < (allTopics reg).length) ∧
    (run shipped State.Root ["1", "", "", "", "", "", "", "", ""]).2 = State.Root ∧
    (calls (run shipped State.Root ["1", "", "", "", "", "", "", "", ""]).1).length = 9 := by
  refine ⟨?_, fun i rest s h => tutorialLoop_blocked_bound reg _ rest i s h,
    by decide, by decide⟩
  obtain ⟨k, hk, h1, h2, h3⟩ :=
    tutorial_returns reg input 0 (allTopics reg) (List.drop_zero _) hlen
  refine ⟨k, by omega, ?_, ?_, ?_⟩
  · rw [run_root_one reg "1" _ (by decide)]
    exact h1
  · intro j hj
    rw [run_root_one reg "1" _ (by decide), h2 j hj, Nat.zero_add]
  · rw [run_root_one reg "1" _ (by decide)]
    exact h3

/-- C24 at a concrete input: eight lines, the third being `m`; the tutorial
of the shipped program reads three of them. -/
theorem tutorial_terminates_witness :
    (∃ k, k ≤ (allTopics shipped).length - 1 ∧
      (run shipped State.Root ("1" :: ["n", "", "m", "x", "", "", "", ""].take k)).2
        = State.Root ∧
      (∀ j, j < k →
        (run shipped State.Root ("1" :: ["n", "", "m", "x", "", "", "", ""].take j)).2
          = State.TutorialAt j) ∧
      (calls (run shipped State.Root
        ("1" :: ["n", "", "m", "x", "", "", "", ""].take k)).1).length
        ≤ (allTopics shipped).length) ∧
      (run shipped State.Root ["1", "n", "", "m"]).2 = State.Root :=
  ⟨(tutorial_terminates shipped ["n", "", "m", "x", "", "", "", ""] (by decide)).1,
   by decide⟩

/-! ## C25: the acknowledgement and the input that follows it -/

/-- C25, the code at a failing input.  The standard input is a file holding an
empty acknowledgement line and then the lines `1` and `q`.  The first call of
`PressEnterToContinue` (from `displayWelcome`, before the scanner has read
anything) leaves nothing of it: its reader has taken the lines `1` and `q`
into its buffer and is dropped with them, where a reader that stops behind the
newline leaves `1` and `q`.  The scanner of `main` then reads on an exhausted
input: its first token is the empty one, answered with "Invalid choice", and
not the token `1`. -/
theorem pressEnter_reads_ahead :
    readBytesNewReader ("\n1\nq\n".length + 1) "\n1\nq\n".data = ("\n".data, []) ∧
    stdinAfterPressEnter "\n1\nq\n".data = [] ∧
    afterFirstLine "\n1\nq\n".data = "1\nq\n".data ∧
    stdinAfterPressEnter "\n1\nq\n".data ≠ afterFirstLine "\n1\nq\n".data ∧
    (step shipped start.2 "").1
      = [Event.Println "Invalid choice. Please try again.", Event.PressEnterToContinue]
          ++ mainLoop.1 ∧
    (step shipped start.2 "").2 = State.Root ∧
    (step shipped start.2 "1").2 = State.TutorialAt 0 := by
  decide

/-! ## C26 and C27: `String` on the enums of the behaviour example -/

theorem sliceIndex_negSucc (l : List String) (n : Nat) :
    sliceIndex l (Int.negSucc n) = none := by
  unfold sliceIndex
  have h : ¬ (0 : Int) ≤ Int.negSucc n := by
    have := Int.negSucc_lt_zero n
    omega
  rw [if_neg h]

/-- C26, the code at the failing inputs and elsewhere.  For a negative value,
-1 for one, the test `int(p) < len(names)` holds and `names[int(p)]` panics:
`String` returns nothing.  For 0, 1, 2, 3 it returns the four names and for
every value from 4 on "Unknown Payment Method(p)". -/
theorem behPaymentMethod_string_panics :
    BehPaymentMethod.String (-1) = none ∧
    (∀ n : Nat, BehPaymentMethod.String (Int.negSucc n) = none) ∧
    BehPaymentMethod.String 0 = some "Credit Card" ∧
    BehPaymentMethod.String 1 = some "PayPal" ∧
    BehPaymentMethod.String 2 = some "Bank Transfer" ∧
    BehPaymentMethod.String 3 = some "Cryptocurrency" ∧
    BehPaymentMethod.String 4 = some "Unknown Payment Method(4)" ∧
    (∀ n : Nat, BehPaymentMethod.String ((n : Int) + 4)
      = some ("Unknown Payment Method(" ++ toString ((n : Int) + 4) ++ ")")) := by
  refine ⟨by decide, ?_, by decide, by decide, by decide, by decide, by decide, ?_⟩
  · intro n
    unfold BehPaymentMethod.String
    have h : Int.negSucc n < ((["Credit Card", "PayPal", "Bank Transfer",
        "Cryptocurrency"].length : Nat) : Int) := by
      have := Int.negSucc_lt_zero n
      simp only [List.length_cons, List.length_nil]
      omega
    simp only [h, if_true]
    exact sliceIndex_negSucc _ n
  · intro n
    unfold BehPaymentMethod.String
    have h : ¬ ((n : Int) + 4 < ((["Credit Card", "PayPal", "Bank Transfer",
        "Cryptocurrency"].length : Nat) : Int)) := by
      simp only [List.length_cons, List.length_nil]
      omega
    simp only [h, if_false]

/-- C27, the code at the failing inputs and elsewhere.  For a negative value,
-1 for one, the test `int(s) < len(names)` holds and `names[int(s)]` panics:
`String` returns nothing.  For 0 .. 3 it returns the four names and for
every value from 4 on "Unknown Season(s)".  `MonthsInNorthernHemisphere`
returns three months for 0 .. 3 and the empty list for every other value, the
negative ones included. -/
theorem behSeason_string_panics :
    BehSeason.String (-1) = none ∧
    (∀ n : Nat, BehSeason.String (Int.negSucc n) = none) ∧
    BehSeason.String 0 = some "Spring" ∧
    BehSeason.String 1 = some "Summer" ∧
    BehSeason.String 2 = some "Autumn" ∧
    BehSeason.String 3 = some "Winter" ∧
    BehSeason.String 4 = some "Unknown Season(4)" ∧
    (∀ n : Nat, BehSeason.String ((n : Int) + 4)
      = some ("Unknown Season(" ++ toString ((n : Int) + 4) ++ ")")) ∧
    BehSeason.MonthsInNorthernHemisphere 0 = ["March", "April", "May"] ∧
    BehSeason.MonthsInNorthernHemisphere 1 = ["June", "July", "August"] ∧
    BehSeason.MonthsInNorthernHemisphere 2 = ["September", "October", "November"] ∧
    BehSeason.MonthsInNorthernHemisphere 3 = ["December", "January", "February"] ∧
    (∀ n : Nat, BehSeason.MonthsInNorthernHemisphere (Int.negSucc n) = []) ∧
    (∀ n : Nat, BehSeason.MonthsInNorthernHemisphere ((n : Int) + 4) = []) := by
  refine ⟨by decide, ?_, by decide, by decide, by decide, by decide, by decide, ?_,
    by decide, by decide, by decide, by decide, ?_, ?_⟩
  · intro n
    unfold BehSeason.String
    have h : Int.negSucc n < ((["Spring", "Summer", "Autumn", "Winter"].length : Nat) : Int) := by
      have := Int.negSucc_lt_zero n
      simp only [List.length_cons, List.length_nil]
      omega
    simp only [h, if_true]
    exact sliceIndex_negSucc _ n
  · intro n
    unfold BehSeason.String
    have h : ¬ ((n : Int) + 4
        < ((["Spring", "Summer", "Autumn", "Winter"].length : Nat) : Int)) := by
      simp only [List.length_cons, List.length_nil]
      omega
    simp only [h, if_false]
  · intro n
    have := Int.negSucc_lt_zero n
    unfold BehSeason.MonthsInNorthernHemisphere
    rw [if_neg (by omega), if_neg (by omega), if_neg (by omega), if_neg (by omega)]
  · intro n
    unfold BehSeason.MonthsInNorthernHemisphere
    rw [if_neg (by omega), if_neg (by omega), if_neg (by omega), if_neg (by omega)]

/-! ## C28: the classification of a status code -/

/-- C28: for every status `s`, `IsError` holds exactly when `IsClientError` or
`IsServerError` holds, `IsClientError` and `IsServerError` never hold
together, and `IsSuccess` and `IsError` never hold together. -/
theorem httpStatus_consistent (s : Int) :
    (StrHttpStatus.IsError s = true ↔
      (StrHttpStatus.IsClientError s = true ∨ StrHttpStatus.IsServerError s = true)) ∧
    ¬ (StrHttpStatus.IsClientError s = true ∧ StrHttpStatus.IsServerError s = true) ∧
    ¬ (StrHttpStatus.IsSuccess s = true ∧ StrHttpStatus.IsError s = true) := by
  simp only [StrHttpStatus.IsError, StrHttpStatus.IsClientError, StrHttpStatus.IsServerError,
    StrHttpStatus.IsSuccess, Bool.and_eq_true, decide_eq_true_eq]
  omega

/-! ## C29: the open and the closed file handler -/

/-- C29: `Read` and `Write` return 0 and the error "file is not open" exactly
when `isOpen` is false, and leave the slice alone then; a handler built by the
composite literal is closed; on an open handler, so after `Open`, `Write`
returns `len(p)` and no error and `Read` returns `min(len(p), 15)` and no
error, having copied that many bytes of "Hello from file" to the front of
`p`; after `Close` both fail again; `Open` and `Close` return no error; and
none of the four methods changes `filename` or `timeFormat`. -/
theorem fileHandler_state_machine (f : CompFileHandler) (p : List Char) :
    ((f.Read p).err = some "file is not open" ↔ f.isOpen = false) ∧
    ((f.Write p).err = some "file is not open" ↔ f.isOpen = false) ∧
    ((f.Read p).err = none ↔ f.isOpen = true) ∧
    ((f.Write p).err = none ↔ f.isOpen = true) ∧
    (f.isOpen = false → (f.Read p).n = 0 ∧ (f.Read p).p = p ∧
      (f.Write p).n = 0 ∧ (f.Write p).p = p) ∧
    (∀ filename timeFormat : String,
      (CompFileHandler.new filename timeFormat).isOpen = false) ∧
    f.Open.1 = none ∧ f.Open.2.1.isOpen = true ∧
    f.Close.1 = none ∧ f.Close.2.1.isOpen = false ∧
    (f.Open.2.1.Write p).n = (p.length : Int) ∧ (f.Open.2.1.Write p).err = none ∧
    (f.Open.2.1.Read p).n = ((min p.length 15 : Nat) : Int) ∧
    (f.Open.2.1.Read p).err = none ∧
    (f.Open.2.1.Read p).p
      = "Hello from file".data.take (min p.length 15) ++ p.drop (min p.length 15) ∧
    (f.Open.2.1.Read p).p.length = p.length ∧
    (f.Open.2.1.Close.2.1.Read p).err = some "file is not open" ∧
    (f.Open.2.1.Close.2.1.Write p).err = some "file is not open" ∧
    (f.Open.2.1.Close.2.1.Read p).n = 0 ∧ (f.Open.2.1.Close.2.1.Write p).n = 0 ∧
    (f.Open.2.1.filename = f.filename ∧ f.Open.2.1.timeFormat = f.timeFormat) ∧
    (f.Close.2.1.filename = f.filename ∧ f.Close.2.1.timeFormat = f.timeFormat) ∧
    ((f.Read p).handler = f ∧ (f.Write p).handler = f) := by
  have hlen : "Hello from file".data.length = 15 := by decide
  obtain ⟨filename, timeFormat, isOpen⟩ := f
  refine ⟨?_, ?_, ?_, ?_, ?_, fun _ _ => rfl, rfl, rfl, rfl, rfl, ?_, ?_, ?_, ?_, ?_, ?_,
    rfl, rfl, rfl, rfl, ⟨rfl, rfl⟩, ⟨rfl, rfl⟩, ?_⟩
  · cases isOpen <;> simp [CompFileHandler.Read]
  · cases isOpen <;> simp [CompFileHandler.Write]
  · cases isOpen <;> simp [CompFileHandler.Read]
  · cases isOpen <;> simp [CompFileHandler.Write]
  · intro h
    simp only at h
    subst h
    simp [CompFileHandler.Read, CompFileHandler.Write]
  · simp [CompFileHandler.Open, CompFileHandler.Write]
  · simp [CompFileHandler.Open, CompFileHandler.Write]
  · simp only [CompFileHandler.Open, CompFileHandler.Read, goCopy, hlen]
    simp
  · simp [CompFileHandler.Open, CompFileHandler.Read]
  · simp only [CompFileHandler.Open, CompFileHandler.Read, goCopy, hlen]
    simp
  · simp only [CompFileHandler.Open, CompFileHandler.Read, goCopy, hlen]
    simp only [Bool.not_true, Bool.false_eq_true, if_false, List.length_append,
      List.length_take, List.length_drop, hlen]
    omega
  · cases isOpen <;> simp [CompFileHandler.Read, CompFileHandler.Write]

/-- C29 at the handler of the example: built closed, a read into a slice of 100
bytes after `Open` returns 15, a read into a slice of 5 bytes returns 5 and
fills it with "Hello". -/
theorem fileHandler_state_machine_witness :
    (CompFileHandler.new "data.txt" "2006-01-02T15:04:05Z07:00").isOpen = false ∧
      ((CompFileHandler.new "data.txt" "2006-01-02T15:04:05Z07:00").Read "xxxxx".data).err
        = some "file is not open" ∧
      ((CompFileHandler.new "data.txt" "2006-01-02T15:04:05Z07:00").Open.2.1.Read
        (List.replicate 100 'x')).n = 15 ∧
      ((CompFileHandler.new "data.txt" "2006-01-02T15:04:05Z07:00").Open.2.1.Read
        "xxxxx".data).p = "Hello".data :=
  ⟨rfl,
   ((fileHandler_state_machine (CompFileHandler.new "data.txt" "2006-01-02T15:04:05Z07:00")
      "xxxxx".data).1).mpr rfl,
   by decide, by decide⟩

end Explorer
